import Mathlib

/-!
Verification development for the `rem` object-relational mapping layer
(Go).  The definitions below are a shallow embedding of the query
construction and dialect engine of the repository:

* `FilterClause`, `Q`, `And`, `Or`, `flattenFilterClause` embed the filter
  expression model of the `rem` package.
* `GoDialect`, `buildSelectWith`, `buildInsertWith`, `pqBuildUpdate`,
  `sqliteBuildUpdate`, `pqBuildDelete`, `sqliteBuildDelete`,
  `pqColumnType`, `pqBuildTableCreate` embed the PostgreSQL
  (`pqdialect`) and SQLite (`sqlitedialect`) backends.
* SQL text is modelled as a list of tokens (`Tok`): every
  `queryString.WriteString(dialect.Param(n))` call in the Go source
  becomes a `Tok.par n` token and every other `WriteString` becomes a
  `Tok.lit` token; `renderToks` concatenates them into the final SQL
  string exactly as the Go `strings.Builder` does.  This keeps the
  distinction between parameter placeholders emitted by the builder and
  literal SQL text (raw SQL supplied by the caller is literal text).
* Go `map[string]interface{}` values are modelled as association lists;
  `map` enumeration order corresponds to the representation order of the
  association list (Go's `maps.Keys` returns keys in indeterminate
  order, so a fixed abstract map has many enumeration orders).
* Go `interface{}` values flowing through the builder are modelled by
  the closed sum `Val`; filter operands by `Operand`, mirroring the
  runtime type switches of the source.
-/

/-- Runtime values (`interface{}`) that flow into SQL argument lists. -/
inductive Val
  | vint (n : Int)
  | vstr (s : String)
  | vbool (b : Bool)
  deriving DecidableEq, Repr

/-- One piece of generated SQL text: literal text, or a positional
parameter placeholder produced by `dialect.Param`.  `par n` records the
1-based parameter number passed to `Param`. -/
inductive Tok
  | lit (s : String)
  | par (n : Nat)
  deriving DecidableEq, Repr

/-- The parameter numbers of the placeholder tokens of a token list, in
emission order. -/
def parIdxs : List Tok → List Nat
  | [] => []
  | .par n :: ts => n :: parIdxs ts
  | .lit _ :: ts => parIdxs ts

/-- A dialect, reduced to the two operations the shared rendering code
uses: identifier quoting and placeholder syntax (`Param`). -/
structure GoDialect where
  quoteIdentifier : String → String
  paramText : Nat → String

/-- `strings.Split(identifier, ".")` specialised to the dot separator. -/
def splitDot (cs : List Char) (acc : List Char) : List String :=
  match cs with
  | [] => [String.mk acc.reverse]
  | c :: rest =>
    if c = '.' then String.mk acc.reverse :: splitDot rest []
    else splitDot rest (c :: acc)

/-- Modelled from the spec: the package-level `pqdialect.QuoteIdentifier`
helper (quoting of one identifier segment) is not among the provided
source files; per the spec, quoting wraps the segment in the dialect's
quote character and escapes embedded quote characters by doubling, which
for PostgreSQL is the double quote (`"x"` → `"x"""` in the dialect's
tests). -/
def pqQuoteSegment (s : String) : String :=
  String.mk ('"' :: (s.data.foldr
    (fun c acc => if c = '"' then '"' :: '"' :: acc else c :: acc) ['"']))

/-- `sqlitedialect.QuoteIdentifier` (package-level): backtick quoting
with doubling of embedded backticks. -/
def sqliteQuoteSegment (s : String) : String :=
  String.mk ('`' :: (s.data.foldr
    (fun c acc => if c = '`' then '`' :: '`' :: acc else c :: acc) ['`']))

/-- Method `QuoteIdentifier` shared shape of both dialects: split the
identifier on dots, quote each segment, re-join with dots. -/
def quoteDotted (seg : String → String) (identifier : String) : String :=
  String.intercalate "." ((splitDot identifier.data []).map seg)

/-- The PostgreSQL dialect (`pqdialect.PqDialect`): `$N` placeholders,
double-quote identifier quoting. -/
def pqDialect : GoDialect :=
  { quoteIdentifier := quoteDotted pqQuoteSegment
    paramText := fun n => "$" ++ toString n }

/-- The SQLite dialect (`sqlitedialect.SqliteDialect`): `?` placeholders,
backtick identifier quoting. -/
def sqliteDialect : GoDialect :=
  { quoteIdentifier := quoteDotted sqliteQuoteSegment
    paramText := fun _ => "?" }

/-- Render a token list to the final SQL string for a dialect. -/
def renderToks (d : GoDialect) (toks : List Tok) : String :=
  toks.foldl (fun acc t => acc ++ (match t with
    | .lit s => s
    | .par n => d.paramText n)) ""

/-- One segment of a `rem.Sql(...)` parameterized fragment
(`SqlWithParams.Segments`): literal text or a `rem.Param` value. -/
inductive Seg
  | text (s : String)
  | par (v : Val)
  deriving DecidableEq, Repr

/-- A filter operand (`FilterClause.Left` / `FilterClause.Right`,
dynamically typed `interface{}` in Go).  The constructors correspond to
the cases of the type switches in `leftString` / `rightString`:
`gostring` is a plain Go `string`, `sqlcolumn` a `rem.SqlColumn`
(a `DialectStringer`), `sqlraw` a `rem.SqlUnsafe`, `sqlwith` a
`rem.SqlWithParams` (a `DialectStringerWithArgs`), `gonil` the Go `nil`,
`golist` a `[]interface{}` slice of plain values, and `goval` any other
plain value (parameterized). -/
inductive Operand
  | gostring (s : String)
  | sqlcolumn (s : String)
  | sqlraw (s : String)
  | sqlwith (segs : List Seg)
  | gonil
  | golist (vs : List Val)
  | goval (v : Val)
  deriving DecidableEq, Repr

/-- `rem.FilterClause`. -/
structure FilterClause where
  left : Operand := .gonil
  operator : String := ""
  right : Operand := .gonil
  rule : String := ""
  deriving DecidableEq, Repr

/-- The fixed operator allow-list (`filterOperators`). -/
def filterOperators : List String :=
  ["=", "!=", "<>", "<", ">", "<=", ">=", "LIKE", "NOT LIKE", "IN",
   "NOT IN", "IS", "IS NOT", "ALL", "<> ALL", "ANY", "<> ANY", "EXISTS",
   "NOT EXISTS", "OVERLAPS", "?", "?&", "?|", "@>", "<@"]

/-- `SqlWithParams.StringWithArgs`: render the segments, appending each
`rem.Param` value to the argument list and emitting
`dialect.Param(len(args))` in its place. -/
def segsWithArgs (segs : List Seg) (args : List Val) : List Tok × List Val :=
  match segs with
  | [] => ([], args)
  | .text s :: rest =>
    let (toks, args) := segsWithArgs rest args
    (.lit s :: toks, args)
  | .par v :: rest =>
    let (toks, args2) := segsWithArgs rest (args ++ [v])
    (.par (args.length + 1) :: toks, args2)

/-- `FilterClause.leftString`: renders the left operand.  Plain strings
and `DialectStringer`s quote/render to text, `DialectStringerWithArgs`
fragments may emit placeholders, `SqlUnsafe` is passed through verbatim;
anything else is an error. -/
def leftString (d : GoDialect) (filter : FilterClause) (args : List Val) :
    Except String (List Tok × List Val) :=
  match filter.left with
  | .gostring s => .ok ([.lit (d.quoteIdentifier s)], args)
  | .sqlwith segs => .ok (segsWithArgs segs args)
  | .sqlcolumn s => .ok ([.lit (d.quoteIdentifier s)], args)
  | .sqlraw s => .ok ([.lit s], args)
  | _ => .error "rem: unsupported type for left side of filter clause"

/-- The slice loop of `rightString` (`for j, arg := range right`): each
element is appended to the argument list and emitted as a placeholder,
with a comma before every element but the first (`j > 0`). -/
def sliceParams (vs : List Val) (args : List Val) (j : Nat) : List Tok × List Val :=
  match vs with
  | [] => ([], args)
  | v :: rest =>
    let (toks, args2) := sliceParams rest (args ++ [v]) (j + 1)
    ((if j > 0 then [Tok.lit ","] else []) ++ Tok.par (args.length + 1) :: toks,
      args2)

/-- `FilterClause.rightString`: renders the right operand.  Fragments
render themselves, `nil` renders as literal `NULL`, a slice renders as a
comma-joined parameter list, and any other value becomes one
parameter. -/
def rightString (d : GoDialect) (filter : FilterClause) (args : List Val) :
    Except String (List Tok × List Val) :=
  match filter.right with
  | .sqlwith segs => .ok (segsWithArgs segs args)
  | .sqlcolumn s => .ok ([.lit (d.quoteIdentifier s)], args)
  | .sqlraw s => .ok ([.lit s], args)
  | .gonil => .ok ([.lit "NULL"], args)
  | .golist vs => .ok (sliceParams vs args 0)
  | .gostring s => .ok ([.par (args.length + 1)], args ++ [.vstr s])
  | .goval v => .ok ([.par (args.length + 1)], args ++ [v])

/-- Whether a right operand is a `DialectStringerWithArgs` or
`SqlUnsafe` (the two cases the `?&`/`?|` rendering exempts from the
`array[...]` wrapper). -/
def isSqlFragment : Operand → Bool
  | .sqlwith _ => true
  | .sqlraw _ => true
  | _ => false

/-- `FilterClause.StringWithArgs`: structural rules render to their
token, leaf `WHERE` rules validate the operator and render
operand-by-operand with operator-specific formatting (`EXISTS` family
wraps the right side alone, the `IN`/`ALL`/`ANY` family parenthesises the
right side, `?&`/`?|` wrap a non-fragment right side in an `array[...]`
literal, everything else renders `left op right`). -/
def filterStringWithArgs (d : GoDialect) (filter : FilterClause)
    (args : List Val) : Except String (List Tok × List Val) :=
  match filter.rule with
  | "(" => .ok ([.lit " ("], args)
  | ")" => .ok ([.lit " )"], args)
  | "AND" => .ok ([.lit " AND"], args)
  | "OR" => .ok ([.lit " OR"], args)
  | "WHERE" =>
    if filter.operator ∈ filterOperators then
      match leftString d filter args with
      | .error e => .error e
      | .ok (left, args) =>
        match rightString d filter args with
        | .error e => .error e
        | .ok (right, args) =>
          if filter.operator = "EXISTS" ∨ filter.operator = "NOT EXISTS" then
            .ok ([.lit " ", .lit filter.operator, .lit " ("] ++ right ++ [.lit ")"], args)
          else if filter.operator = "IN" ∨ filter.operator = "NOT IN" ∨
              filter.operator = "ALL" ∨ filter.operator = "<> ALL" ∨
              filter.operator = "ANY" ∨ filter.operator = "<> ANY" then
            .ok (([.lit " "] ++ left ++ [.lit " ", .lit filter.operator, .lit " ("] ++
              right ++ [.lit ")"], args))
          else if (filter.operator = "?&" ∨ filter.operator = "?|") ∧
              isSqlFragment filter.right = false then
            .ok (([.lit " "] ++ left ++ [.lit " ", .lit filter.operator, .lit " array["] ++
              right ++ [.lit "]"], args))
          else
            .ok (([.lit " "] ++ left ++ [.lit " ", .lit filter.operator, .lit " "] ++
              right, args))
    else .error "rem: invalid operator on WHERE clause"
  | _ => .error "rem: invalid rule on WHERE clause"

/-- `rem.Q`: one leaf comparison clause. -/
def Q (column : Operand) (operator : String) (value : Operand) : FilterClause :=
  { left := column, operator := operator, right := value, rule := "WHERE" }

/-- An argument to `And`/`Or`/`FilterAnd`/`FilterOr`/`Join`
(`interface{}` in Go): a single clause, a clause sequence, or any other
value (silently dropped by flattening). -/
inductive FilterArg
  | clause (c : FilterClause)
  | clauseList (cs : List FilterClause)
  | other
  deriving DecidableEq, Repr

/-- `rem.flattenFilterClause`. -/
def flattenFilterClause (clauses : List FilterClause) (clause : FilterArg) :
    List FilterClause :=
  match clause with
  | .clause ct => clauses ++ [ct]
  | .clauseList ct => clauses ++ ct
  | .other => clauses

/-- Flattening a whole argument list (`for _, clause := range clauses`). -/
def flattenAll (clauses : List FilterArg) : List FilterClause :=
  clauses.foldl flattenFilterClause []

/-- The structural clause `{Rule: r}`. -/
def ruleClause (r : String) : FilterClause := { rule := r }

/-- One iteration of the connective-insertion loop shared by
`And`/`Or`/`FilterAnd`/`FilterOr`: state is (accumulated list, running
`indent` depth, loop index `i`); a connective is appended before the
current clause when `i > 0 && indent == 0`, and `indent` is updated from
the current clause before it is appended. -/
def connectStep (rule : String) (st : List FilterClause × Int × Nat)
    (clause : FilterClause) : List FilterClause × Int × Nat :=
  let (filter, indent, i) := st
  let filter := if i > 0 ∧ indent = 0 then filter ++ [ruleClause rule] else filter
  let indent := if clause.rule = "(" then indent + 1
    else if clause.rule = ")" then indent - 1 else indent
  (filter ++ [clause], indent, i + 1)

namespace Rem

/-- `rem.And`: flatten the arguments, wrap in brackets, and insert `AND`
between depth-zero siblings. -/
def And (clauses : List FilterArg) : List FilterClause :=
  let flat := flattenAll clauses
  (flat.foldl (connectStep "AND") ([ruleClause "("], 0, 0)).1 ++ [ruleClause ")"]

/-- `rem.Or`: same loop with the `OR` connective. -/
def Or (clauses : List FilterArg) : List FilterClause :=
  let flat := flattenAll clauses
  (flat.foldl (connectStep "OR") ([ruleClause "("], 0, 0)).1 ++ [ruleClause ")"]

end Rem

/-- Modelled from the spec: connective insertion described
declaratively.  Walking the flattened sequence with a running depth
counter, a connective clause is inserted before every element except the
first whose running depth is zero; bracket interiors (depth above zero)
are left untouched. -/
def specConnJoin (rule : String) (depth : Int) (first : Bool) :
    List FilterClause → List FilterClause
  | [] => []
  | c :: rest =>
    let pre := if ¬first ∧ depth = 0 then [ruleClause rule] else []
    let depth2 := if c.rule = "(" then depth + 1
      else if c.rule = ")" then depth - 1 else depth
    pre ++ c :: specConnJoin rule depth2 false rest

/-- Underlying Go type of a model field, as discriminated by the
`ColumnType` type switches.  `goOther` covers every unrecognised type
(its argument is the Go type name used in the error message); the
foreign-key wrapper branch is not needed by the claims and is not
embedded. -/
inductive GoType
  | goBool | goInt | goInt8 | goInt16 | goInt32 | goInt64
  | goFloat32 | goFloat64 | goString | goTime
  | nullBool | nullFloat64 | nullInt16 | nullInt32 | nullInt64
  | nullString | nullTime
  | goOther (typeName : String)
  deriving DecidableEq, Repr

/-- A `reflect.StructField` reduced to what `ColumnType` consumes: the
underlying type and the struct tags. -/
structure GoStructField where
  typ : GoType
  tags : List (String × String)
  deriving DecidableEq, Repr

/-- `field.Tag.Get(key)`: the tag value, or the empty string when the
tag is absent. -/
def tagGet (tags : List (String × String)) (key : String) : String :=
  (tags.lookup key).getD ""

/-- A member of `QueryConfig.Selected` (`interface{}` in Go): a plain
column-name string (quoted), a self-rendering fragment modelled by its
rendered text (the `DialectStringer` / `fmt.Stringer` cases, e.g.
`rem.Unsafe`), or an unsupported value (error). -/
inductive SelCol
  | name (s : String)
  | fragment (s : String)
  | invalid
  deriving DecidableEq, Repr

/-- `rem.JoinClause` (the Go field `On` is `onClauses` here; `on` is a
reserved word in Lean). -/
structure JoinClause where
  direction : String
  onClauses : List FilterClause
  table : String
  deriving DecidableEq, Repr

/-- `rem.QueryConfig`.  The Go `Context` field is modelled as
`Option Bool`: `none` when no context is attached, `some done` when one
is attached with `done` recording whether its `Done` channel has already
triggered.  `Fields` is the column-name-to-field map as an association
list; `Limit`/`Offset` are `interface{}` values checked only against
`nil`. -/
structure QueryConfig where
  count : Bool := false
  context : Option Bool := none
  fetchRelated : List String := []
  fields : List (String × GoStructField) := []
  filters : List FilterClause := []
  joins : List JoinClause := []
  limit : Option Val := none
  offset : Option Val := none
  params : List Val := []
  selected : List SelCol := []
  sort : List String := []
  table : String := ""
  deriving Repr

/-- `Query.Filter`: auto-insert an `AND` connective when prior filters
exist, then append the leaf clause `Q(column, operator, value)`. -/
def filterQ (config : QueryConfig) (column : Operand) (operator : String)
    (value : Operand) : QueryConfig :=
  let fs := if config.filters.length > 0
    then config.filters ++ [ruleClause "AND"] else config.filters
  { config with filters := fs ++ [Q column operator value] }

/-- `Query.FilterAnd`: flatten the arguments, join to any existing
filters with `AND`, and append the bracket-wrapped group using the same
connective-insertion loop as `rem.And`. -/
def filterAnd (config : QueryConfig) (clauses : List FilterArg) : QueryConfig :=
  let flat := flattenAll clauses
  let fs := if config.filters.length > 0
    then config.filters ++ [ruleClause "AND"] else config.filters
  let fs := (flat.foldl (connectStep "AND") (fs ++ [ruleClause "("], 0, 0)).1
  { config with filters := fs ++ [ruleClause ")"] }

/-- `Query.FilterOr`: same as `filterAnd` but inserting `OR` between the
group's own depth-zero siblings (the joint to preceding filters is still
`AND`). -/
def filterOr (config : QueryConfig) (clauses : List FilterArg) : QueryConfig :=
  let flat := flattenAll clauses
  let fs := if config.filters.length > 0
    then config.filters ++ [ruleClause "AND"] else config.filters
  let fs := (flat.foldl (connectStep "OR") (fs ++ [ruleClause "("], 0, 0)).1
  { config with filters := fs ++ [ruleClause ")"] }

/-- `Query.Limit`. -/
def limitQ (config : QueryConfig) (v : Val) : QueryConfig :=
  { config with limit := some v }

/-- `Query.Offset`. -/
def offsetQ (config : QueryConfig) (v : Val) : QueryConfig :=
  { config with offset := some v }

/-- `Query.Sort`. -/
def sortQ (config : QueryConfig) (columns : List String) : QueryConfig :=
  { config with sort := columns }

/-- Folding a clause list through `FilterClause.StringWithArgs`,
threading the argument list (the `for _, where := range ...` loops of
`buildWhere` / `buildJoins`). -/
def clausesWithArgs (d : GoDialect) (clauses : List FilterClause)
    (args : List Val) : Except String (List Tok × List Val) :=
  match clauses with
  | [] => .ok ([], args)
  | c :: rest =>
    match filterStringWithArgs d c args with
    | .error e => .error e
    | .ok (toks, args) =>
      match clausesWithArgs d rest args with
      | .error e => .error e
      | .ok (toks2, args) => .ok (toks ++ toks2, args)

/-- `buildWhere` (identical in both dialects): empty output when there
are no filters, otherwise ` WHERE` followed by every clause rendered in
order. -/
def buildWhere (d : GoDialect) (config : QueryConfig) (args : List Val) :
    Except String (List Tok × List Val) :=
  if config.filters.length > 0 then
    match clausesWithArgs d config.filters args with
    | .error e => .error e
    | .ok (toks, args) => .ok (Tok.lit " WHERE" :: toks, args)
  else .ok ([], args)

/-- `buildJoins` (identical in both dialects): joins render in
declaration order; a join with an empty `On` list is skipped. -/
def buildJoins (d : GoDialect) (joins : List JoinClause) (args : List Val) :
    Except String (List Tok × List Val) :=
  match joins with
  | [] => .ok ([], args)
  | join :: rest =>
    if join.onClauses.length > 0 then
      match clausesWithArgs d join.onClauses args with
      | .error e => .error e
      | .ok (toks, args) =>
        match buildJoins d rest args with
        | .error e => .error e
        | .ok (toks2, args) =>
          .ok (Tok.lit (" " ++ join.direction ++ " JOIN " ++
            d.quoteIdentifier join.table ++ " ON") :: toks ++ toks2, args)
    else buildJoins d rest args

/-- The projection clause of `BuildSelect`: `count(*)`, the selected
columns, or `*`; ends with ` FROM ` (the table name is appended by the
caller). -/
def selectProjection (d : GoDialect) (config : QueryConfig) :
    Except String (List Tok) :=
  if config.count then .ok [.lit "SELECT count(*) FROM "]
  else if config.selected.length > 0 then
    match (config.selected.foldl (fun acc col =>
      match acc with
      | .error e => Except.error e
      | .ok (s, first) =>
        let sep := if first then "" else ","
        match col with
        | .name cv => .ok (s ++ sep ++ d.quoteIdentifier cv, false)
        | .fragment cv => .ok (s ++ sep ++ cv, false)
        | .invalid => .error "rem: invalid column type"
      ) (Except.ok ("SELECT ", true)) : Except String (String × Bool)) with
    | .error e => .error e
    | .ok (s, _) => .ok [.lit (s ++ " FROM ")]
  else .ok [.lit "SELECT * FROM "]

/-- Whether a sort column carries the leading `-` descending marker. -/
def hasDashMarker (s : String) : Bool :=
  match s.data with
  | '-' :: _ => true
  | _ => false

/-- `column[1:]` for a sort column with a marker. -/
def dropDashMarker (s : String) : String := String.mk s.data.tail

/-- One rendered `ORDER BY` entry: `"col" ASC`, or `"col" DESC` when the
column is prefixed with the marker character. -/
def sortColText (d : GoDialect) (column : String) : String :=
  if hasDashMarker column then d.quoteIdentifier (dropDashMarker column) ++ " DESC"
  else d.quoteIdentifier column ++ " ASC"

/-- The `ORDER BY` section shared by the SELECT/DELETE/UPDATE builders:
empty when there are no sort columns. -/
def orderByToks (d : GoDialect) (sortCols : List String) : List Tok :=
  if sortCols.length > 0 then
    [.lit (" ORDER BY " ++ String.intercalate ", " (sortCols.map (sortColText d)))]
  else []

/-- The `LIMIT` section shared by the SELECT/DELETE/UPDATE builders:
when a limit is set, append it to the argument list and emit
` LIMIT ` followed by a placeholder. -/
def limitSection (limit : Option Val) (args : List Val) : List Tok × List Val :=
  match limit with
  | some v => ([Tok.lit " LIMIT ", Tok.par (args.length + 1)], args ++ [v])
  | none => ([], args)

/-- The `OFFSET` section of the SELECT builder. -/
def offsetSection (offset : Option Val) (args : List Val) : List Tok × List Val :=
  match offset with
  | some v => ([Tok.lit " OFFSET ", Tok.par (args.length + 1)], args ++ [v])
  | none => ([], args)

/-- `BuildSelect` (both `PqDialect.BuildSelect` and
`SqliteDialect.BuildSelect` have this same body, differing only in the
dialect operations): projection, `FROM` table, joins, `WHERE`,
`ORDER BY`, `LIMIT`, `OFFSET`, in that order, threading the argument
list. -/
def buildSelectWith (d : GoDialect) (config : QueryConfig) :
    Except String (List Tok × List Val) :=
  let args := config.params
  match selectProjection d config with
  | .error e => .error e
  | .ok proj =>
    match buildJoins d config.joins args with
    | .error e => .error e
    | .ok (joinT, args) =>
      match buildWhere d config args with
      | .error e => .error e
      | .ok (whereT, args) =>
        let sortT := orderByToks d config.sort
        let lim := limitSection config.limit args
        let off := offsetSection config.offset lim.2
        .ok (proj ++ [Tok.lit (d.quoteIdentifier config.table)] ++ joinT ++
          whereT ++ sortT ++ lim.1 ++ off.1, off.2)

/-- `PqDialect.BuildSelect`. -/
def pqBuildSelect (config : QueryConfig) : Except String (List Tok × List Val) :=
  buildSelectWith pqDialect config

/-- `SqliteDialect.BuildSelect`. -/
def sqliteBuildSelect (config : QueryConfig) : Except String (List Tok × List Val) :=
  buildSelectWith sqliteDialect config

/-- `PqDialect.BuildDelete`: `DELETE FROM` plus `WHERE`; any sort,
limit, or offset in the query state is a hard error. -/
def pqBuildDelete (config : QueryConfig) : Except String (List Tok × List Val) :=
  let args := config.params
  match buildWhere pqDialect config args with
  | .error e => .error e
  | .ok (whereT, args) =>
    if config.sort.length > 0 then .error "rem: DELETE does not support ORDER BY"
    else if config.limit.isSome then .error "rem: DELETE does not support LIMIT"
    else if config.offset.isSome then .error "rem: DELETE does not support OFFSET"
    else .ok ([Tok.lit ("DELETE FROM " ++ pqDialect.quoteIdentifier config.table)] ++
      whereT, args)

/-- `SqliteDialect.BuildDelete`: `DELETE FROM` plus `WHERE`, then
`ORDER BY` and a parameterized `LIMIT` are appended when present; an
offset is a hard error. -/
def sqliteBuildDelete (config : QueryConfig) : Except String (List Tok × List Val) :=
  let args := config.params
  match buildWhere sqliteDialect config args with
  | .error e => .error e
  | .ok (whereT, args) =>
    let sortT := orderByToks sqliteDialect config.sort
    let lim := limitSection config.limit args
    if config.offset.isSome then .error "rem: DELETE does not support OFFSET"
    else .ok ([Tok.lit ("DELETE FROM " ++ sqliteDialect.quoteIdentifier config.table)] ++
      whereT ++ sortT ++ lim.1, lim.2)

/-- The column-list loop of `BuildInsert`: for every explicit column
name, the value is looked up in the row map (missing value is an error),
the column must exist in the model's field map (unknown column is an
error), the value is appended to the argument list and the quoted column
name to the column list. -/
def insertColumns (d : GoDialect) (config : QueryConfig)
    (rowMap : List (String × Val)) (columns : List String)
    (args : List Val) (toks : List Tok) (first : Bool) :
    Except String (List Tok × List Val) :=
  match columns with
  | [] => .ok (toks, args)
  | column :: rest =>
    match rowMap.lookup column with
    | some arg =>
      if (config.fields.lookup column).isSome then
        insertColumns d config rowMap rest (args ++ [arg])
          (toks ++ (if first then [] else [Tok.lit ","]) ++
            [Tok.lit (d.quoteIdentifier column)]) false
      else .error ("rem: field for column " ++ column ++
        " not found on model for table " ++ config.table)
    | none => .error ("rem: invalid column " ++ column ++ " on INSERT")

/-- The `VALUES` placeholder loop of `BuildInsert`:
`for i := 1; i <= len(rowMap); i++` emitting `dialect.Param(i)` with
commas between. -/
def insertValueToks (n : Nat) : List Tok :=
  (List.range' 1 n).foldl
    (fun acc i => acc ++ (if i > 1 then [Tok.lit ","] else []) ++ [Tok.par i]) []

/-- `BuildInsert` (identical body in `PqDialect` and `SqliteDialect`):
`INSERT INTO table (columns...) VALUES (placeholders...)`.  The fresh
argument list starts empty (`Params` is not copied), the column list
comes from the explicit `columns` arguments, and the number of
placeholders is `len(rowMap)`. -/
def buildInsertWith (d : GoDialect) (config : QueryConfig)
    (rowMap : List (String × Val)) (columns : List String) :
    Except String (List Tok × List Val) :=
  match insertColumns d config rowMap columns [] [] true with
  | .error e => .error e
  | .ok (colToks, args) =>
    .ok ([Tok.lit ("INSERT INTO " ++ d.quoteIdentifier config.table ++ " (")] ++
      colToks ++ [Tok.lit ") VALUES ("] ++ insertValueToks rowMap.length ++
      [Tok.lit ")"], args)

/-- `PqDialect.BuildInsert`. -/
def pqBuildInsert (config : QueryConfig) (rowMap : List (String × Val))
    (columns : List String) : Except String (List Tok × List Val) :=
  buildInsertWith pqDialect config rowMap columns

/-- `SqliteDialect.BuildInsert`. -/
def sqliteBuildInsert (config : QueryConfig) (rowMap : List (String × Val))
    (columns : List String) : Except String (List Tok × List Val) :=
  buildInsertWith sqliteDialect config rowMap columns

/-- The `SET` loop of `BuildUpdate` (identical in both dialects): each
explicit column is looked up in the row map (missing value is an error;
there is no field-map check here), its value appended to the argument
list and `"col" = $N` to the text. -/
def updateSetColumns (d : GoDialect) (rowMap : List (String × Val))
    (columns : List String) (args : List Val) (toks : List Tok)
    (first : Bool) : Except String (List Tok × List Val) :=
  match columns with
  | [] => .ok (toks, args)
  | column :: rest =>
    match rowMap.lookup column with
    | some arg =>
      updateSetColumns d rowMap rest (args ++ [arg])
        (toks ++ (if first then [] else [Tok.lit ","]) ++
          [Tok.lit (d.quoteIdentifier column ++ " = "), Tok.par (args.length + 1)])
        false
    | none => .error ("rem: invalid column " ++ column ++ " on UPDATE")

/-- `PqDialect.BuildUpdate`: `UPDATE table SET ...` plus `WHERE`.  The
query state's sort, limit, and offset are not consulted at all. -/
def pqBuildUpdate (config : QueryConfig) (rowMap : List (String × Val))
    (columns : List String) : Except String (List Tok × List Val) :=
  let args := config.params
  match updateSetColumns pqDialect rowMap columns args [] true with
  | .error e => .error e
  | .ok (setToks, args) =>
    match buildWhere pqDialect config args with
    | .error e => .error e
    | .ok (whereT, args) =>
      .ok ([Tok.lit ("UPDATE " ++ pqDialect.quoteIdentifier config.table ++ " SET ")] ++
        setToks ++ whereT, args)

/-- `SqliteDialect.BuildUpdate`: `UPDATE table SET ...` plus `WHERE`,
then `ORDER BY` and a parameterized `LIMIT` are appended when present;
an offset is a hard error. -/
def sqliteBuildUpdate (config : QueryConfig) (rowMap : List (String × Val))
    (columns : List String) : Except String (List Tok × List Val) :=
  let args := config.params
  match updateSetColumns sqliteDialect rowMap columns args [] true with
  | .error e => .error e
  | .ok (setToks, args) =>
    match buildWhere sqliteDialect config args with
    | .error e => .error e
    | .ok (whereT, args) =>
      let sortT := orderByToks sqliteDialect config.sort
      let lim := limitSection config.limit args
      if config.offset.isSome then .error "rem: UPDATE does not support OFFSET"
      else .ok ([Tok.lit ("UPDATE " ++ sqliteDialect.quoteIdentifier config.table ++
        " SET ")] ++ setToks ++ whereT ++ sortT ++ lim.1, lim.2)

/-- `PqDialect.ColumnType`: an explicit `db_type` tag always wins;
otherwise a primary-key tag turns integer kinds into serial types with a
`PRIMARY KEY` modifier, a fixed table maps the remaining kinds
(nullable wrappers get ` NULL` instead of ` NOT NULL`, strings with a
`db_max_length` tag get `VARCHAR(n)` instead of `TEXT`), an unrecognised
kind is a hard error, and `db_default`/`db_unique` tags append
modifiers. -/
def pqColumnType (field : GoStructField) : Except String String :=
  let tagType := tagGet field.tags "db_type"
  if tagType ≠ "" then .ok tagType
  else
    let columnPrimary := if tagGet field.tags "primary_key" = "true"
      then " PRIMARY KEY" else ""
    let (columnNull, columnType) :=
      if tagGet field.tags "primary_key" = "true" then
        match field.typ with
        | .goInt => (" NOT NULL", "BIGSERIAL")
        | .goInt64 => (" NOT NULL", "BIGSERIAL")
        | .goInt32 => (" NOT NULL", "SERIAL")
        | .goInt8 => (" NOT NULL", "SMALLSERIAL")
        | .goInt16 => (" NOT NULL", "SMALLSERIAL")
        | _ => ("", "")
      else ("", "")
    let (columnNull, columnType) :=
      if columnType = "" then
        match field.typ with
        | .goBool => (" NOT NULL", "BOOLEAN")
        | .nullBool => (" NULL", "BOOLEAN")
        | .goFloat64 => (" NOT NULL", "DOUBLE PRECISION")
        | .nullFloat64 => (" NULL", "DOUBLE PRECISION")
        | .goInt => (" NOT NULL", "BIGINT")
        | .goInt64 => (" NOT NULL", "BIGINT")
        | .nullInt64 => (" NULL", "BIGINT")
        | .goInt32 => (" NOT NULL", "INTEGER")
        | .nullInt32 => (" NULL", "INTEGER")
        | .goInt8 => (" NOT NULL", "SMALLINT")
        | .goInt16 => (" NOT NULL", "SMALLINT")
        | .nullInt16 => (" NULL", "SMALLINT")
        | .goString =>
          (" NOT NULL",
            if tagGet field.tags "db_max_length" ≠ "" then
              "VARCHAR(" ++ tagGet field.tags "db_max_length" ++ ")"
            else "TEXT")
        | .nullString =>
          (" NULL",
            if tagGet field.tags "db_max_length" ≠ "" then
              "VARCHAR(" ++ tagGet field.tags "db_max_length" ++ ")"
            else "TEXT")
        | .goTime =>
          (" NOT NULL",
            if tagGet field.tags "db_time_zone" = "true" then
              "TIMESTAMP WITH TIME ZONE"
            else "TIMESTAMP WITHOUT TIME ZONE")
        | .nullTime =>
          (" NULL",
            if tagGet field.tags "db_time_zone" = "true" then
              "TIMESTAMP WITH TIME ZONE"
            else "TIMESTAMP WITHOUT TIME ZONE")
        | _ => ("", "")
      else (columnNull, columnType)
    if columnType = "" then
      .error "rem: Unsupported column type. Use the db_type field tag to define a SQL type"
    else
      let columnNull := if tagGet field.tags "db_default" ≠ ""
        then columnNull ++ " DEFAULT " ++ tagGet field.tags "db_default"
        else columnNull
      let columnNull := if tagGet field.tags "db_unique" = "true"
        then columnNull ++ " UNIQUE" else columnNull
      .ok (columnType ++ columnPrimary ++ columnNull)

/-- Lexicographic comparison on character lists (Go compares strings
byte-wise; UTF-8 byte order coincides with code-point order). -/
def charListLe : List Char → List Char → Bool
  | [], _ => true
  | _ :: _, [] => false
  | a :: as, b :: bs =>
    if a.val < b.val then true
    else if b.val < a.val then false
    else charListLe as bs

/-- Lexicographic string comparison. -/
def strLe (a b : String) : Bool := charListLe a.data b.data

/-- Insertion of a string into a lexicographically sorted list
(`sort.Strings`). -/
def insertSorted (s : String) : List String → List String
  | [] => [s]
  | t :: rest => if strLe s t then s :: t :: rest else t :: insertSorted s rest

/-- `sort.Strings`: lexicographic insertion sort. -/
def sortStrings (l : List String) : List String :=
  l.foldr insertSorted []

/-- The per-field loop of `BuildTableCreate`: the sorted field names,
each rendered as `\n\t"name" columntype` with commas between. -/
def tableCreateFields (fieldNames : List String)
    (fields : List (String × GoStructField)) (first : Bool) :
    Except String String :=
  match fieldNames with
  | [] => .ok ""
  | name :: rest =>
    match pqColumnType ((fields.lookup name).getD { typ := .goOther "", tags := [] }) with
    | .error e => .error e
    | .ok columnType =>
      match tableCreateFields rest fields false with
      | .error e => .error e
      | .ok s =>
        .ok ((if first then "" else ",") ++ "\n\t" ++
          pqDialect.quoteIdentifier name ++ " " ++ columnType ++ s)

/-- `PqDialect.BuildTableCreate`: `CREATE TABLE` (optionally
`IF NOT EXISTS`) with one line per field, fields ordered by sorted
column name. -/
def pqBuildTableCreate (config : QueryConfig) (ifNotExists : Bool) :
    Except String String :=
  let fieldNames := sortStrings (config.fields.map (·.1))
  match tableCreateFields fieldNames config.fields true with
  | .error e => .error e
  | .ok body =>
    .ok ("CREATE TABLE " ++ (if ifNotExists then "IF NOT EXISTS " else "") ++
      pqDialect.quoteIdentifier config.table ++ " (" ++ body ++ "\n)")

/-- `Query.InsertMap` (and the tail of `Query.Insert`): the dialect
`BuildInsert` is invoked with the row map and with
`maps.Keys(data)` as the explicit column list.  In the association-list
model the key enumeration order is the representation order (Go's
`maps.Keys` returns keys in an indeterminate order). -/
def queryInsertMap (config : QueryConfig) (data : List (String × Val)) :
    Except String (List Tok × List Val) :=
  pqBuildInsert config data (data.map (·.1))

/-- Errors surfaced by the execution methods: the distinguished
`sql.ErrNoRows`, a context cancellation error (`Context.Err()`), a
database/scan error, or a query-construction error. -/
inductive GoError
  | errNoRows
  | ctxErr
  | dbErr (s : String)
  | buildErr (s : String)
  deriving DecidableEq, Repr

/-- What happened to the `*sql.Rows` cursor obtained by an execution
method: never opened (the method failed before querying), opened and
released before returning, or opened and still open at return. -/
inductive CursorTrace
  | notOpened
  | openClosed
  | openLeaked
  deriving DecidableEq, Repr

/-- The database underneath an execution: `rowsFor sql args` is the
result set for a query, given as per-row scan outcomes (`Rows.Next`
walks the list; `Scan`/`ScanToMap` yields the entry).  Scanned rows are
abstracted to `Val`. -/
structure DbEnv where
  rowsFor : List Tok → List Val → Except String (List (Except String Val))

/-- `Query.First`: force `limit = 1`, build and run the SELECT, scan the
first row if any; with an empty result set return the context's error
when an attached context has already triggered, else `sql.ErrNoRows`.
The cursor is released by `defer query.Rows.Close()`; a result set whose
first `Next()` returns false is also auto-closed by `database/sql`. -/
def firstRun (d : GoDialect) (env : DbEnv) (config : QueryConfig) :
    Except GoError Val × CursorTrace :=
  let config := { config with limit := some (.vint 1) }
  match buildSelectWith d config with
  | .error e => (.error (.buildErr e), .notOpened)
  | .ok (toks, args) =>
    match env.rowsFor toks args with
    | .error e => (.error (.dbErr e), .notOpened)
    | .ok rows =>
      match rows with
      | r :: _ =>
        (match r with
         | .error e => (.error (.dbErr e), .openClosed)
         | .ok v => (.ok v, .openClosed))
      | [] =>
        match config.context with
        | some true => (.error .ctxErr, .openClosed)
        | _ => (.error .errNoRows, .openClosed)

/-- `Query.FirstToMap`: identical control flow to `Query.First` with
`ScanToMap` in place of `Scan`. -/
def firstToMapRun (d : GoDialect) (env : DbEnv) (config : QueryConfig) :
    Except GoError Val × CursorTrace :=
  let config := { config with limit := some (.vint 1) }
  match buildSelectWith d config with
  | .error e => (.error (.buildErr e), .notOpened)
  | .ok (toks, args) =>
    match env.rowsFor toks args with
    | .error e => (.error (.dbErr e), .notOpened)
    | .ok rows =>
      match rows with
      | r :: _ =>
        (match r with
         | .error e => (.error (.dbErr e), .openClosed)
         | .ok v => (.ok v, .openClosed))
      | [] =>
        match config.context with
        | some true => (.error .ctxErr, .openClosed)
        | _ => (.error .errNoRows, .openClosed)

/-- The `for query.Rows.Next()` scan loop of `AllToMap`: stops at the
first scan error. -/
def scanAllRows (rows : List (Except String Val)) : Except String (List Val) :=
  match rows with
  | [] => .ok []
  | .error e :: _ => .error e
  | .ok v :: rest =>
    match scanAllRows rest with
    | .error e => .error e
    | .ok vs => .ok (v :: vs)

/-- `Query.AllToMap`: build and run the SELECT, scan every row under a
`defer query.Rows.Close()`, then perform the single non-blocking context
check. -/
def allToMapRun (d : GoDialect) (env : DbEnv) (config : QueryConfig) :
    Except GoError (List Val) × CursorTrace :=
  match buildSelectWith d config with
  | .error e => (.error (.buildErr e), .notOpened)
  | .ok (toks, args) =>
    match env.rowsFor toks args with
    | .error e => (.error (.dbErr e), .notOpened)
    | .ok rows =>
      match scanAllRows rows with
      | .error e => (.error (.dbErr e), .openClosed)
      | .ok vals =>
        match config.context with
        | some true => (.error .ctxErr, .openClosed)
        | _ => (.ok vals, .openClosed)

/-- `Query.Exists`: force `limit = 1`, run the SELECT and report
`rows.Next()`.  The method contains no `rows.Close()` call and no
`defer`; the cursor is auto-closed by `database/sql` only when the
result set is empty (`Next()` returning false at end of set), and is
left open whenever at least one row exists. -/
def existsRun (d : GoDialect) (env : DbEnv) (config : QueryConfig) :
    Except GoError Bool × CursorTrace :=
  let config := { config with limit := some (.vint 1) }
  match buildSelectWith d config with
  | .error e => (.error (.buildErr e), .notOpened)
  | .ok (toks, args) =>
    match env.rowsFor toks args with
    | .error e => (.error (.dbErr e), .notOpened)
    | .ok rows =>
      match rows with
      | [] => (.ok false, .openClosed)
      | _ :: _ => (.ok true, .openLeaked)

/-- A scanned related-model row (`testGroups`-like: plain primary key
and payload). -/
structure GroupRow where
  gid : Int
  gname : String
  deriving DecidableEq, Repr

/-- A scanned primary-model row carrying a `rem.NullForeignKey` relation
field (`testAccounts`-like).  `groupValid` is the wrapper's `Valid`
flag; `groupRowId` is the related primary key stored in the wrapper's
stub `Row` by scanning; `groupRowName` is the related payload (filled in
by prefetching). -/
structure AccountRow where
  aid : Int
  aname : String
  groupValid : Bool
  groupRowId : Int
  groupRowName : String
  deriving DecidableEq, Repr

/-- A scanned primary-model row carrying a `rem.OneToMany` relation
field (`testGroups`-like owner side). -/
structure OtmGroup where
  gid : Int
  gname : String
  accountsRows : List AccountRow
  deriving DecidableEq, Repr

/-- The related-model query oracle for the prefetch engine: each
function call is the single
`relatedModel.Query().Filter(column, "IN", values).All(db)` follow-up
query for one relation name. -/
structure RelatedDb where
  groupsFor : List Val → List GroupRow
  accountsFor : List Val → List AccountRow

/-- The to-one collection pass of `Query.slice`: while scanning the
primary rows, the related primary-key value of every row whose wrapper
is `Valid` is appended (in row order, duplicates kept). -/
def fkCollect (rows : List AccountRow) : List Int :=
  (rows.filter (·.groupValid)).map (·.groupRowId)

/-- The to-one matching pass of `Query.slice` for one primary row: a row
with a valid wrapper gets its `Row` replaced by the first batched result
whose primary key equals the stored related key (the Go loop breaks on
the first match); no match, or an invalid wrapper, leaves the row
untouched. -/
def fkPopulate (batch : List GroupRow) (row : AccountRow) : AccountRow :=
  if row.groupValid then
    match batch.find? (fun g => g.gid == row.groupRowId) with
    | some g => { row with groupRowId := g.gid, groupRowName := g.gname }
    | none => row
  else row

/-- The prefetch phase of `Query.slice` for one requested to-one
relation name: when any related keys were collected, issue exactly one
batched `IN` query and stitch the results into every primary row; with
no collected keys no query runs.  The second component counts the
follow-up queries issued. -/
def slicePrefetchFk (env : RelatedDb) (rows : List AccountRow) :
    List AccountRow × Nat :=
  let ids := fkCollect rows
  if ids.length > 0 then
    (rows.map (fkPopulate (env.groupsFor (ids.map .vint))), 1)
  else (rows, 0)

/-- The to-many collection pass of `Query.slice`: every primary row
appends its own primary-key value. -/
def otmCollect (rows : List OtmGroup) : List Int :=
  rows.map (·.gid)

/-- The to-many matching pass for one owning row: all batched rows whose
stored foreign-key value equals the owner's primary key are appended to
the relation's row set, in batch order. -/
def otmPopulate (batch : List AccountRow) (row : OtmGroup) : OtmGroup :=
  { row with accountsRows :=
      row.accountsRows ++ batch.filter (fun a => a.groupRowId == row.gid) }

/-- The prefetch phase of `Query.slice` for one requested to-many
relation name. -/
def slicePrefetchOtm (env : RelatedDb) (rows : List OtmGroup) :
    List OtmGroup × Nat :=
  let ids := otmCollect rows
  if ids.length > 0 then
    (rows.map (otmPopulate (env.accountsFor (ids.map .vint))), 1)
  else (rows, 0)

/-- Well-bracketing check for a filter-clause sequence: the running
depth of `(` / `)` structural clauses never drops below zero and ends at
zero. -/
def depthCheck (d : Nat) : List FilterClause → Bool
  | [] => d == 0
  | c :: cs =>
    if c.rule = "(" then depthCheck (d + 1) cs
    else if c.rule = ")" then
      match d with
      | 0 => false
      | e + 1 => depthCheck e cs
    else depthCheck d cs

/-- A filter sequence is well-bracketed when its bracket clauses nest
properly. -/
def wellBracketed (cs : List FilterClause) : Bool := depthCheck 0 cs

/-- Well-formed top-level filter sequences: non-empty alternations of
items (a leaf `WHERE` clause, or a bracketed group whose interior is
itself well-formed) separated by single `AND`/`OR` connective
clauses. -/
inductive FSeq : List FilterClause → Prop
  | leafSingle (c : FilterClause) : c.rule = "WHERE" → FSeq [c]
  | groupSingle (inner : List FilterClause) : FSeq inner →
      FSeq (ruleClause "(" :: inner ++ [ruleClause ")"])
  | leafCons (c conn : FilterClause) (rest : List FilterClause) :
      c.rule = "WHERE" → conn.rule = "AND" ∨ conn.rule = "OR" → FSeq rest →
      FSeq (c :: conn :: rest)
  | groupCons (inner : List FilterClause) (conn : FilterClause)
      (rest : List FilterClause) : FSeq inner →
      conn.rule = "AND" ∨ conn.rule = "OR" → FSeq rest →
      FSeq (ruleClause "(" :: inner ++ ruleClause ")" :: conn :: rest)

/-- A clause list that forms one item: a single leaf clause, or one
bracketed group with well-formed interior (the shape of every
`And`/`Or` result). -/
def IsItemSeq (cs : List FilterClause) : Prop :=
  (∃ c, cs = [c] ∧ c.rule = "WHERE") ∨
  (∃ inner, FSeq inner ∧ cs = ruleClause "(" :: inner ++ [ruleClause ")"])

/-- A well-formed argument to `FilterAnd`/`FilterOr`/`And`/`Or`: a leaf
clause, a clause list forming one item, or any non-clause value (which
flattening drops). -/
def ArgOk : FilterArg → Prop
  | .clause c => c.rule = "WHERE"
  | .clauseList cs => IsItemSeq cs
  | .other => True

/-- The column-metadata of the dialect tests' `testModel` (an `int64`
primary key tagged `primary_key:"true"` on column `test_id` and a string
column `test_value_1` with `db_max_length:"100"`). -/
def testmodelFields : List (String × GoStructField) :=
  [("test_id", { typ := .goInt64, tags := [("db", "test_id"), ("primary_key", "true")] }),
   ("test_value_1", { typ := .goString, tags := [("db", "test_value_1"), ("db_max_length", "100")] })]

/-- The `testmodel` query state of the end-to-end C1 scenario:
`Filter("id","=",1).Offset(20).Limit(10)`. -/
def c1Config : QueryConfig :=
  limitQ (offsetQ (filterQ { table := "testmodel", fields := testmodelFields }
    (.gostring "id") "=" (.goval (.vint 1))) (.vint 20)) (.vint 10)

deriving instance DecidableEq for Except

/-- The clause content one argument contributes to flattening: a single
clause contributes itself, a clause sequence contributes its elements,
anything else contributes nothing. -/
def argClauses : FilterArg → List FilterClause
  | .clause c => [c]
  | .clauseList cs => cs
  | .other => []

/-- Alignment of emitted placeholder tokens with the argument list: the
output argument list extends the input one, and the placeholder numbers
enumerate in order exactly the (1-based) positions of the appended
arguments. -/
def ParAligned (args : List Val) (toks : List Tok) (args2 : List Val) : Prop :=
  ∃ extra, args2 = args ++ extra ∧
    parIdxs toks = List.range' (args.length + 1) extra.length

/-- The batched result set the to-one prefetch works from: the single
`IN` query's result when any related keys were collected, and nothing
otherwise (no query runs). -/
def fkBatch (env : RelatedDb) (rows : List AccountRow) : List GroupRow :=
  if (fkCollect rows).length > 0 then env.groupsFor ((fkCollect rows).map .vint)
  else []

/-- The batched result set the to-many prefetch works from. -/
def otmBatch (env : RelatedDb) (rows : List OtmGroup) : List AccountRow :=
  if (otmCollect rows).length > 0 then env.accountsFor ((otmCollect rows).map .vint)
  else []

/-- Row maps for the C3 scenario: the same two-column Go map in its two
possible enumeration orders. -/
def c3RowMapA : List (String × Val) :=
  [("test_value_1", .vstr "foo"), ("test_value_2", .vstr "bar")]

def c3RowMapB : List (String × Val) :=
  [("test_value_2", .vstr "bar"), ("test_value_1", .vstr "foo")]

/-- Column metadata with the two value columns of the dialect tests. -/
def c3Fields : List (String × GoStructField) :=
  [("test_value_1", { typ := .goString, tags := [("db", "test_value_1")] }),
   ("test_value_2", { typ := .goString, tags := [("db", "test_value_2")] })]

def c3Config : QueryConfig := { table := "testmodel", fields := c3Fields }

/-- The C4 failing input: an UPDATE query state carrying a sort list, a
limit, and an offset. -/
def c4Config : QueryConfig :=
  { table := "testmodel", fields := c3Fields, sort := ["-test_id"],
    limit := some (.vint 10), offset := some (.vint 20) }

def c4RowMap : List (String × Val) := [("test_value_1", .vstr "foo")]

/-- A database returning an empty result set for every query. -/
def emptyDb : DbEnv := { rowsFor := fun _ _ => .ok [] }

/-- A database returning exactly one row for every query. -/
def oneRowDb : DbEnv := { rowsFor := fun _ _ => .ok [.ok (.vint 7)] }

/-- A query state with an attached, already-triggered context. -/
def c7Config : QueryConfig := { table := "t", context := some true }

/-- The filter built by
`Filter(rem.Sql("x", rem.Param(5)), "EXISTS", rem.Unsafe("SELECT 1"))`:
an `EXISTS` clause whose left operand is a parameterized `rem.Sql`
fragment (the `EXISTS` rendering discards its text but `leftString` has
already appended its argument) and whose right side is a raw fragment. -/
def c2BadClause : FilterClause :=
  { left := .sqlwith [.text "x", .par (.vint 5)], operator := "EXISTS",
    right := .sqlraw "SELECT 1", rule := "WHERE" }

/-- A query on table `t` holding only `c2BadClause`. -/
def c2BadConfig : QueryConfig := { table := "t", filters := [c2BadClause] }

/-- Whether an operand emits no placeholders when rendered (only a
`rem.Sql` fragment containing `rem.Param` segments can). -/
def parFreeOperand : Operand → Bool
  | .sqlwith segs => segs.all (fun s => match s with | .par _ => false | _ => true)
  | _ => true

/-- The `EXISTS`/`NOT EXISTS` rendering discards the left operand's text
while keeping any arguments it appended; a clause keeps placeholders and
arguments aligned when its left side appends none in that case.  The
library's own `Exists`/`NotExists` constructors set the left side to the
empty string, which satisfies this. -/
def existsSafe (c : FilterClause) : Bool :=
  if c.operator = "EXISTS" ∨ c.operator = "NOT EXISTS" then parFreeOperand c.left
  else true

/-- All WHERE and join-ON clauses of a query state are `existsSafe`. -/
def configClausesSafe (config : QueryConfig) : Prop :=
  (∀ c ∈ config.filters, existsSafe c = true) ∧
  ∀ j ∈ config.joins, ∀ c ∈ j.onClauses, existsSafe c = true

/-! ### Placeholder / argument alignment -/

theorem parIdxs_append (a b : List Tok) :
    parIdxs (a ++ b) = parIdxs a ++ parIdxs b := by
  induction a with
  | nil => rfl
  | cons t ts ih => cases t <;> simp [parIdxs, ih]

theorem parAligned_nil (args : List Val) (toks : List Tok)
    (h : parIdxs toks = []) : ParAligned args toks args :=
  ⟨[], by simp, by simp [h]⟩

theorem parAligned_comp {a b c : List Val} {t1 t2 : List Tok}
    (h1 : ParAligned a t1 b) (h2 : ParAligned b t2 c) :
    ParAligned a (t1 ++ t2) c := by
  obtain ⟨d1, rfl, hp1⟩ := h1
  obtain ⟨d2, rfl, hp2⟩ := h2
  refine ⟨d1 ++ d2, by simp, ?_⟩
  rw [parIdxs_append, hp1, hp2]
  simp only [List.length_append]
  have h3 : a.length + d1.length + 1 = a.length + 1 + d1.length := by omega
  rw [h3, List.range'_append_1]
  congr 1
  omega

theorem parAligned_push (a b : List Val) (t : List Tok) (v : Val)
    (h : ParAligned a t b) :
    ParAligned a (t ++ [Tok.par (b.length + 1)]) (b ++ [v]) := by
  refine parAligned_comp h ⟨[v], rfl, ?_⟩
  simp [parIdxs]

theorem segsWithArgs_aligned (segs : List Seg) :
    ∀ args, ParAligned args (segsWithArgs segs args).1 (segsWithArgs segs args).2 := by
  induction segs with
  | nil => exact fun args => parAligned_nil args _ rfl
  | cons s rest ih =>
    intro args
    cases s with
    | text str =>
      obtain ⟨d, h1, h2⟩ := ih args
      exact ⟨d, h1, by simpa [segsWithArgs, parIdxs] using h2⟩
    | par v =>
      obtain ⟨d, h1, h2⟩ := ih (args ++ [v])
      refine ⟨v :: d, by simpa using h1, ?_⟩
      simp only [segsWithArgs, parIdxs, h2, List.length_append, List.length_cons,
        List.length_nil]
      rw [List.range'_succ]

theorem sliceParams_aligned (vs : List Val) :
    ∀ args j, ParAligned args (sliceParams vs args j).1 (sliceParams vs args j).2 := by
  induction vs with
  | nil => exact fun args j => parAligned_nil args _ rfl
  | cons v rest ih =>
    intro args j
    obtain ⟨d, h1, h2⟩ := ih (args ++ [v]) (j + 1)
    refine ⟨v :: d, by simpa using h1, ?_⟩
    by_cases hj : j > 0 <;>
      simp only [sliceParams, hj, if_true, if_false, reduceIte, parIdxs,
        parIdxs_append, h2, List.length_append, List.length_cons, List.length_nil,
        List.nil_append, List.cons_append] <;>
      rw [List.range'_succ]

theorem range'_nil_of_eq {s n : Nat} (h : List.range' s n = []) : n = 0 := by
  simpa using h

theorem parAligned_parIdxs_eq {a b : List Val} {t t2 : List Tok}
    (h : ParAligned a t b) (he : parIdxs t2 = parIdxs t) : ParAligned a t2 b := by
  obtain ⟨d, h1, h2⟩ := h
  exact ⟨d, h1, he.trans h2⟩

theorem parAligned_parFree {a b : List Val} {t : List Tok}
    (h : ParAligned a t b) (hp : parIdxs t = []) : b = a := by
  obtain ⟨d, h1, h2⟩ := h
  rw [hp] at h2
  have := range'_nil_of_eq h2.symm
  simp [List.length_eq_zero] at this
  simp [h1, this]

theorem segsWithArgs_parFree (segs : List Seg)
    (hs : segs.all (fun s => match s with | .par _ => false | _ => true) = true) :
    ∀ args, parIdxs (segsWithArgs segs args).1 = [] := by
  induction segs with
  | nil => intro args; rfl
  | cons s rest ih =>
    intro args
    cases s with
    | text str =>
      simp only [List.all_cons, Bool.and_eq_true] at hs
      simp [segsWithArgs, parIdxs, ih hs.2]
    | par v => simp at hs

theorem leftString_parFree (d : GoDialect) (f : FilterClause)
    (args toks : _) (args2 : List Val)
    (hl : parFreeOperand f.left = true)
    (h : leftString d f args = .ok (toks, args2)) :
    parIdxs toks = [] ∧ args2 = args := by
  cases hf : f.left <;>
    simp only [leftString, hf, Except.ok.injEq, Prod.mk.injEq] at h <;>
    try exact Except.noConfusion h
  case gostring s => simp [← h.1, ← h.2, parIdxs]
  case sqlcolumn s => simp [← h.1, ← h.2, parIdxs]
  case sqlraw s => simp [← h.1, ← h.2, parIdxs]
  case sqlwith segs =>
    rw [hf] at hl
    simp only [parFreeOperand] at hl
    have hp := segsWithArgs_parFree segs hl args
    have ha := segsWithArgs_aligned segs args
    rw [h] at hp ha
    exact ⟨hp, parAligned_parFree ha hp⟩

theorem leftString_aligned (d : GoDialect) (f : FilterClause)
    (args : List Val) (toks : List Tok) (args2 : List Val)
    (h : leftString d f args = .ok (toks, args2)) : ParAligned args toks args2 := by
  cases hf : f.left <;>
    simp only [leftString, hf, Except.ok.injEq, Prod.mk.injEq] at h <;>
    try exact Except.noConfusion h
  case gostring s => exact h.2 ▸ parAligned_nil args toks (by simp [← h.1, parIdxs])
  case sqlcolumn s => exact h.2 ▸ parAligned_nil args toks (by simp [← h.1, parIdxs])
  case sqlraw s => exact h.2 ▸ parAligned_nil args toks (by simp [← h.1, parIdxs])
  case sqlwith segs =>
    have ha := segsWithArgs_aligned segs args
    rw [h] at ha
    exact ha

theorem rightString_aligned (d : GoDialect) (f : FilterClause)
    (args : List Val) (toks : List Tok) (args2 : List Val)
    (h : rightString d f args = .ok (toks, args2)) : ParAligned args toks args2 := by
  cases hf : f.right <;>
    simp only [rightString, hf, Except.ok.injEq, Prod.mk.injEq] at h
  case gostring s =>
    refine h.2 ▸ ⟨[.vstr s], rfl, ?_⟩
    simp [← h.1, parIdxs]
  case sqlcolumn s => exact h.2 ▸ parAligned_nil args toks (by simp [← h.1, parIdxs])
  case sqlraw s => exact h.2 ▸ parAligned_nil args toks (by simp [← h.1, parIdxs])
  case sqlwith segs =>
    have ha := segsWithArgs_aligned segs args
    rw [h] at ha
    exact ha
  case gonil => exact h.2 ▸ parAligned_nil args toks (by simp [← h.1, parIdxs])
  case golist vs =>
    have ha := sliceParams_aligned vs args 0
    rw [h] at ha
    exact ha
  case goval v =>
    refine h.2 ▸ ⟨[v], rfl, ?_⟩
    simp [← h.1, parIdxs]

theorem filterStringWithArgs_aligned (d : GoDialect) (f : FilterClause)
    (args : List Val) (toks : List Tok) (args2 : List Val)
    (hsafe : existsSafe f = true)
    (h : filterStringWithArgs d f args = .ok (toks, args2)) :
    ParAligned args toks args2 := by
  unfold filterStringWithArgs at h
  split at h
  · simp only [Except.ok.injEq, Prod.mk.injEq] at h
    exact h.2 ▸ parAligned_nil args toks (by simp [← h.1, parIdxs])
  · simp only [Except.ok.injEq, Prod.mk.injEq] at h
    exact h.2 ▸ parAligned_nil args toks (by simp [← h.1, parIdxs])
  · simp only [Except.ok.injEq, Prod.mk.injEq] at h
    exact h.2 ▸ parAligned_nil args toks (by simp [← h.1, parIdxs])
  · simp only [Except.ok.injEq, Prod.mk.injEq] at h
    exact h.2 ▸ parAligned_nil args toks (by simp [← h.1, parIdxs])
  · -- the WHERE leaf case
    split at h
    · cases hL : leftString d f args with
      | error e => rw [hL] at h; exact Except.noConfusion h
      | ok p =>
        obtain ⟨left, args1⟩ := p
        rw [hL] at h
        dsimp only at h
        cases hR : rightString d f args1 with
        | error e => rw [hR] at h; exact Except.noConfusion h
        | ok q =>
          obtain ⟨right, argsr⟩ := q
          rw [hR] at h
          dsimp only at h
          have hAl := leftString_aligned d f args left args1 hL
          have hAr := rightString_aligned d f args1 right argsr hR
          split at h
          · -- EXISTS / NOT EXISTS: the left operand is dropped from the text
            rename_i hex
            rw [existsSafe, if_pos hex] at hsafe
            obtain ⟨hpl, hargs1⟩ := leftString_parFree d f args left args1 hsafe hL
            subst hargs1
            simp only [Except.ok.injEq, Prod.mk.injEq] at h
            refine h.2 ▸ parAligned_parIdxs_eq hAr ?_
            simp [← h.1, parIdxs_append, parIdxs]
          · split at h
            · simp only [Except.ok.injEq, Prod.mk.injEq] at h
              refine h.2 ▸ parAligned_parIdxs_eq (parAligned_comp hAl hAr) ?_
              simp [← h.1, parIdxs_append, parIdxs]
            · split at h
              · simp only [Except.ok.injEq, Prod.mk.injEq] at h
                refine h.2 ▸ parAligned_parIdxs_eq (parAligned_comp hAl hAr) ?_
                simp [← h.1, parIdxs_append, parIdxs]
              · simp only [Except.ok.injEq, Prod.mk.injEq] at h
                refine h.2 ▸ parAligned_parIdxs_eq (parAligned_comp hAl hAr) ?_
                simp [← h.1, parIdxs_append, parIdxs]
    · exact Except.noConfusion h
  · exact Except.noConfusion h

theorem clausesWithArgs_aligned (d : GoDialect) (clauses : List FilterClause) :
    ∀ args toks args2, (∀ c ∈ clauses, existsSafe c = true) →
    clausesWithArgs d clauses args = .ok (toks, args2) →
    ParAligned args toks args2 := by
  induction clauses with
  | nil =>
    intro args toks args2 _ h
    simp only [clausesWithArgs, Except.ok.injEq, Prod.mk.injEq] at h
    exact h.2 ▸ parAligned_nil args toks (by simp [← h.1, parIdxs])
  | cons c rest ih =>
    intro args toks args2 hs h
    unfold clausesWithArgs at h
    cases hc : filterStringWithArgs d c args with
    | error e => rw [hc] at h; exact Except.noConfusion h
    | ok p =>
      obtain ⟨t1, a1⟩ := p
      rw [hc] at h
      dsimp only at h
      cases hr : clausesWithArgs d rest a1 with
      | error e => rw [hr] at h; exact Except.noConfusion h
      | ok q =>
        obtain ⟨t2, a2⟩ := q
        rw [hr] at h
        dsimp only at h
        simp only [Except.ok.injEq, Prod.mk.injEq] at h
        have h1 := filterStringWithArgs_aligned d c args t1 a1 (hs c (by simp)) hc
        have h2 := ih a1 t2 a2 (fun x hx => hs x (by simp [hx])) hr
        exact h.2 ▸ h.1 ▸ parAligned_comp h1 h2

theorem buildWhere_aligned (d : GoDialect) (config : QueryConfig)
    (args : List Val) (toks : List Tok) (args2 : List Val)
    (hs : ∀ c ∈ config.filters, existsSafe c = true)
    (h : buildWhere d config args = .ok (toks, args2)) :
    ParAligned args toks args2 := by
  unfold buildWhere at h
  split at h
  · cases hc : clausesWithArgs d config.filters args with
    | error e => rw [hc] at h; exact Except.noConfusion h
    | ok p =>
      obtain ⟨t1, a1⟩ := p
      rw [hc] at h
      dsimp only at h
      simp only [Except.ok.injEq, Prod.mk.injEq] at h
      have h1 := clausesWithArgs_aligned d config.filters args t1 a1 hs hc
      refine h.2 ▸ parAligned_parIdxs_eq h1 ?_
      simp [← h.1, parIdxs]
  · simp only [Except.ok.injEq, Prod.mk.injEq] at h
    exact h.2 ▸ parAligned_nil args toks (by simp [← h.1, parIdxs])

theorem buildJoins_aligned (d : GoDialect) (joins : List JoinClause) :
    ∀ args toks args2, (∀ j ∈ joins, ∀ c ∈ j.onClauses, existsSafe c = true) →
    buildJoins d joins args = .ok (toks, args2) →
    ParAligned args toks args2 := by
  induction joins with
  | nil =>
    intro args toks args2 _ h
    simp only [buildJoins, Except.ok.injEq, Prod.mk.injEq] at h
    exact h.2 ▸ parAligned_nil args toks (by simp [← h.1, parIdxs])
  | cons join rest ih =>
    intro args toks args2 hs h
    unfold buildJoins at h
    split at h
    · cases hc : clausesWithArgs d join.onClauses args with
      | error e => rw [hc] at h; exact Except.noConfusion h
      | ok p =>
        obtain ⟨t1, a1⟩ := p
        rw [hc] at h
        dsimp only at h
        cases hr : buildJoins d rest a1 with
        | error e => rw [hr] at h; exact Except.noConfusion h
        | ok q =>
          obtain ⟨t2, a2⟩ := q
          rw [hr] at h
          dsimp only at h
          simp only [Except.ok.injEq, Prod.mk.injEq] at h
          have h1 := clausesWithArgs_aligned d join.onClauses args t1 a1
            (hs join (by simp)) hc
          have h2 := ih a1 t2 a2 (fun j hj => hs j (by simp [hj])) hr
          refine h.2 ▸ parAligned_parIdxs_eq (parAligned_comp h1 h2) ?_
          simp [← h.1, parIdxs, parIdxs_append]
    · exact ih args toks args2 (fun j hj => hs j (by simp [hj])) h

theorem selectProjection_parFree (d : GoDialect) (config : QueryConfig)
    (proj : List Tok) (h : selectProjection d config = .ok proj) :
    parIdxs proj = [] := by
  unfold selectProjection at h
  split at h
  · simp only [Except.ok.injEq] at h
    simp [← h, parIdxs]
  · split at h
    · split at h
      · exact Except.noConfusion h
      · simp only [Except.ok.injEq] at h
        simp [← h, parIdxs]
    · simp only [Except.ok.injEq] at h
      simp [← h, parIdxs]

theorem orderByToks_parFree (d : GoDialect) (sortCols : List String) :
    parIdxs (orderByToks d sortCols) = [] := by
  unfold orderByToks
  split <;> rfl

theorem limitSection_aligned (limit : Option Val) (args : List Val) :
    ParAligned args (limitSection limit args).1 (limitSection limit args).2 := by
  cases limit with
  | none => exact parAligned_nil args _ rfl
  | some v => exact ⟨[v], rfl, by simp [limitSection, parIdxs]⟩

theorem offsetSection_aligned (offset : Option Val) (args : List Val) :
    ParAligned args (offsetSection offset args).1 (offsetSection offset args).2 := by
  cases offset with
  | none => exact parAligned_nil args _ rfl
  | some v => exact ⟨[v], rfl, by simp [offsetSection, parIdxs]⟩

theorem buildSelectWith_aligned (d : GoDialect) (config : QueryConfig)
    (toks : List Tok) (args : List Val)
    (hs : configClausesSafe config)
    (h : buildSelectWith d config = .ok (toks, args)) :
    ParAligned config.params toks args := by
  unfold buildSelectWith at h
  cases hp : selectProjection d config with
  | error e => rw [hp] at h; exact Except.noConfusion h
  | ok proj =>
    rw [hp] at h
    dsimp only at h
    cases hj : buildJoins d config.joins config.params with
    | error e => rw [hj] at h; exact Except.noConfusion h
    | ok pj =>
      obtain ⟨joinT, argsJ⟩ := pj
      rw [hj] at h
      dsimp only at h
      cases hw : buildWhere d config argsJ with
      | error e => rw [hw] at h; exact Except.noConfusion h
      | ok pw =>
        obtain ⟨whereT, argsW⟩ := pw
        rw [hw] at h
        dsimp only at h
        simp only [Except.ok.injEq, Prod.mk.injEq] at h
        have a0 : ParAligned config.params proj config.params :=
          parAligned_nil _ _ (selectProjection_parFree d config proj hp)
        have aL : ParAligned config.params
            [Tok.lit (d.quoteIdentifier config.table)] config.params :=
          parAligned_nil _ _ rfl
        have a1 := buildJoins_aligned d config.joins config.params joinT argsJ hs.2 hj
        have a2 := buildWhere_aligned d config argsJ whereT argsW hs.1 hw
        have a3 : ParAligned argsW (orderByToks d config.sort) argsW :=
          parAligned_nil _ _ (orderByToks_parFree d config.sort)
        have a4 := limitSection_aligned config.limit argsW
        have a5 := offsetSection_aligned config.offset
          (limitSection config.limit argsW).2
        have hAll := parAligned_comp a0 (parAligned_comp aL
          (parAligned_comp a1 (parAligned_comp a2 (parAligned_comp a3
            (parAligned_comp a4 a5)))))
        rw [← h.1, ← h.2]
        simpa [List.append_assoc] using hAll

theorem insertColumns_out (d : GoDialect) (config : QueryConfig)
    (rowMap : List (String × Val)) (columns : List String) :
    ∀ args toks first toks2 args2,
    insertColumns d config rowMap columns args toks first = .ok (toks2, args2) →
    parIdxs toks2 = parIdxs toks ∧ args2.length = args.length + columns.length := by
  induction columns with
  | nil =>
    intro args toks first toks2 args2 h
    simp only [insertColumns, Except.ok.injEq, Prod.mk.injEq] at h
    simp [← h.1, ← h.2]
  | cons c rest ih =>
    intro args toks first toks2 args2 h
    unfold insertColumns at h
    cases hl : rowMap.lookup c with
    | none => rw [hl] at h; exact Except.noConfusion h
    | some arg =>
      rw [hl] at h
      dsimp only at h
      split at h
      · have := ih (args ++ [arg])
          (toks ++ (if first then [] else [Tok.lit ","]) ++
            [Tok.lit (d.quoteIdentifier c)]) false toks2 args2 h
        refine ⟨?_, by simp only [List.length_append, List.length_cons,
          List.length_nil] at this ⊢; omega⟩
        rw [this.1]
        by_cases hf : first <;> simp [hf, parIdxs_append, parIdxs]
      · exact Except.noConfusion h

theorem insertValueToks_foldl (l : List Nat) :
    ∀ acc, parIdxs (l.foldl
      (fun acc i => acc ++ (if i > 1 then [Tok.lit ","] else []) ++ [Tok.par i]) acc) =
    parIdxs acc ++ l := by
  induction l with
  | nil => intro acc; simp
  | cons i rest ih =>
    intro acc
    rw [List.foldl_cons, ih]
    by_cases hi : i > 1 <;> simp [hi, parIdxs_append, parIdxs]

theorem insertValueToks_parIdxs (n : Nat) :
    parIdxs (insertValueToks n) = List.range' 1 n := by
  unfold insertValueToks
  rw [insertValueToks_foldl]
  rfl

theorem buildInsertWith_keys_aligned (d : GoDialect) (config : QueryConfig)
    (rowMap : List (String × Val)) (toks : List Tok) (args : List Val)
    (h : buildInsertWith d config rowMap (rowMap.map (·.1)) = .ok (toks, args)) :
    parIdxs toks = List.range' 1 args.length ∧ args.length = rowMap.length := by
  unfold buildInsertWith at h
  cases hc : insertColumns d config rowMap (rowMap.map (·.1)) [] [] true with
  | error e => rw [hc] at h; exact Except.noConfusion h
  | ok p =>
    obtain ⟨colToks, argsC⟩ := p
    rw [hc] at h
    dsimp only at h
    simp only [Except.ok.injEq, Prod.mk.injEq] at h
    have hout := insertColumns_out d config rowMap (rowMap.map (·.1))
      [] [] true colToks argsC hc
    have hlen : argsC.length = rowMap.length := by
      have := hout.2
      simpa using this
    constructor
    · have hpi : parIdxs ([Tok.lit ("INSERT INTO " ++ d.quoteIdentifier config.table ++
          " (")] ++ colToks ++ [Tok.lit ") VALUES ("] ++
          insertValueToks rowMap.length ++ [Tok.lit ")"]) =
          List.range' 1 rowMap.length := by
        simp [parIdxs_append, parIdxs, insertValueToks_parIdxs, hout.1]
      rw [← h.1, ← h.2, hlen]
      exact hpi
    · rw [← h.2]
      exact hlen

theorem updateSetColumns_aligned (d : GoDialect) (rowMap : List (String × Val))
    (columns : List String) :
    ∀ args toks first toks2 args2,
    updateSetColumns d rowMap columns args toks first = .ok (toks2, args2) →
    ∃ extra, args2 = args ++ extra ∧
      parIdxs toks2 = parIdxs toks ++ List.range' (args.length + 1) extra.length := by
  induction columns with
  | nil =>
    intro args toks first toks2 args2 h
    simp only [updateSetColumns, Except.ok.injEq, Prod.mk.injEq] at h
    exact ⟨[], by simp [← h.2], by simp [← h.1]⟩
  | cons c rest ih =>
    intro args toks first toks2 args2 h
    unfold updateSetColumns at h
    cases hl : rowMap.lookup c with
    | none => rw [hl] at h; exact Except.noConfusion h
    | some arg =>
      rw [hl] at h
      dsimp only at h
      obtain ⟨e2, he1, he2⟩ := ih (args ++ [arg])
        (toks ++ (if first then [] else [Tok.lit ","]) ++
          [Tok.lit (d.quoteIdentifier c ++ " = "), Tok.par (args.length + 1)])
        false toks2 args2 h
      refine ⟨arg :: e2, by simpa using he1, ?_⟩
      rw [he2]
      have hpi : parIdxs (toks ++ (if first then [] else [Tok.lit ","]) ++
          [Tok.lit (d.quoteIdentifier c ++ " = "), Tok.par (args.length + 1)]) =
          parIdxs toks ++ [args.length + 1] := by
        by_cases hf : first <;> simp [hf, parIdxs_append, parIdxs]
      rw [hpi, List.append_assoc]
      congr 1
      rw [List.length_cons, List.range'_succ, List.singleton_append]
      congr 2
      simp

theorem pqBuildUpdate_aligned (config : QueryConfig)
    (rowMap : List (String × Val)) (columns : List String)
    (toks : List Tok) (args : List Val)
    (hs : ∀ c ∈ config.filters, existsSafe c = true)
    (h : pqBuildUpdate config rowMap columns = .ok (toks, args)) :
    ParAligned config.params toks args := by
  unfold pqBuildUpdate at h
  dsimp only at h
  cases hset : updateSetColumns pqDialect rowMap columns config.params [] true with
  | error e => rw [hset] at h; exact Except.noConfusion h
  | ok p =>
    obtain ⟨setToks, argsS⟩ := p
    rw [hset] at h
    dsimp only at h
    cases hw : buildWhere pqDialect config argsS with
    | error e => rw [hw] at h; exact Except.noConfusion h
    | ok q =>
      obtain ⟨whereT, argsW⟩ := q
      rw [hw] at h
      dsimp only at h
      simp only [Except.ok.injEq, Prod.mk.injEq] at h
      obtain ⟨extra, he1, he2⟩ := updateSetColumns_aligned pqDialect rowMap columns
        config.params [] true setToks argsS hset
      have hSet : ParAligned config.params setToks argsS :=
        ⟨extra, he1, by simpa using he2⟩
      have hW := buildWhere_aligned pqDialect config argsS whereT argsW hs hw
      have hAll := parAligned_comp (parAligned_nil config.params
        [Tok.lit ("UPDATE " ++ pqDialect.quoteIdentifier config.table ++ " SET ")] rfl)
        (parAligned_comp hSet hW)
      rw [← h.1, ← h.2]
      simpa [List.append_assoc] using hAll

theorem sqliteBuildUpdate_aligned (config : QueryConfig)
    (rowMap : List (String × Val)) (columns : List String)
    (toks : List Tok) (args : List Val)
    (hs : ∀ c ∈ config.filters, existsSafe c = true)
    (h : sqliteBuildUpdate config rowMap columns = .ok (toks, args)) :
    ParAligned config.params toks args := by
  unfold sqliteBuildUpdate at h
  dsimp only at h
  cases hset : updateSetColumns sqliteDialect rowMap columns config.params [] true with
  | error e => rw [hset] at h; exact Except.noConfusion h
  | ok p =>
    obtain ⟨setToks, argsS⟩ := p
    rw [hset] at h
    dsimp only at h
    cases hw : buildWhere sqliteDialect config argsS with
    | error e => rw [hw] at h; exact Except.noConfusion h
    | ok q =>
      obtain ⟨whereT, argsW⟩ := q
      rw [hw] at h
      dsimp only at h
      split at h
      · exact Except.noConfusion h
      · simp only [Except.ok.injEq, Prod.mk.injEq] at h
        obtain ⟨extra, he1, he2⟩ := updateSetColumns_aligned sqliteDialect rowMap
          columns config.params [] true setToks argsS hset
        have hSet : ParAligned config.params setToks argsS :=
          ⟨extra, he1, by simpa using he2⟩
        have hW := buildWhere_aligned sqliteDialect config argsS whereT argsW hs hw
        have hSort : ParAligned argsW (orderByToks sqliteDialect config.sort) argsW :=
          parAligned_nil _ _ (orderByToks_parFree sqliteDialect config.sort)
        have hLim := limitSection_aligned config.limit argsW
        have hAll := parAligned_comp (parAligned_nil config.params
          [Tok.lit ("UPDATE " ++ sqliteDialect.quoteIdentifier config.table ++ " SET ")] rfl)
          (parAligned_comp hSet (parAligned_comp hW (parAligned_comp hSort hLim)))
        rw [← h.1, ← h.2]
        simpa [List.append_assoc] using hAll

theorem parAligned_closed {toks : List Tok} {args args0 : List Val}
    (hp : args0 = []) (h : ParAligned args0 toks args) :
    parIdxs toks = List.range' 1 args.length := by
  subst hp
  obtain ⟨extra, h1, h2⟩ := h
  simp only [List.nil_append] at h1
  subst h1
  simpa using h2

/-! ### Claim theorems: SELECT shape and placeholder alignment -/

/-- C1: the PostgreSQL `BuildSelect` on the query
`Filter("id","=",1).Offset(20).Limit(10)` over table `testmodel`
produces exactly `SELECT * FROM "testmodel" WHERE "id" = $1 LIMIT $2
OFFSET $3` with argument list `[1, 10, 20]`; and in general every
successful `BuildSelect` output is the concatenation, in fixed order, of
the projection (with `FROM` table), the join clauses in declaration
order, the `WHERE` clause, `ORDER BY` (ASC by default, DESC for
marker-prefixed sort entries, rendered by `orderByToks`), `LIMIT`, and
then `OFFSET`. -/
theorem pqBuildSelect_fixed_order :
    ((pqBuildSelect c1Config).map (fun p => (renderToks pqDialect p.1, p.2)) =
      .ok ("SELECT * FROM \"testmodel\" WHERE \"id\" = $1 LIMIT $2 OFFSET $3",
        [.vint 1, .vint 10, .vint 20])) ∧
    (∀ (d : GoDialect) (config : QueryConfig) (toks : List Tok) (args : List Val),
      buildSelectWith d config = .ok (toks, args) →
      ∃ proj joinT whereT argsJ argsW,
        selectProjection d config = .ok proj ∧
        buildJoins d config.joins config.params = .ok (joinT, argsJ) ∧
        buildWhere d config argsJ = .ok (whereT, argsW) ∧
        toks = proj ++ [Tok.lit (d.quoteIdentifier config.table)] ++ joinT ++
          whereT ++ orderByToks d config.sort ++
          (limitSection config.limit argsW).1 ++
          (offsetSection config.offset (limitSection config.limit argsW).2).1 ∧
        args = (offsetSection config.offset (limitSection config.limit argsW).2).2) := by
  constructor
  · rfl
  · intro d config toks args h
    unfold buildSelectWith at h
    cases hp : selectProjection d config with
    | error e => rw [hp] at h; exact Except.noConfusion h
    | ok proj =>
      rw [hp] at h
      dsimp only at h
      cases hj : buildJoins d config.joins config.params with
      | error e => rw [hj] at h; exact Except.noConfusion h
      | ok pj =>
        obtain ⟨joinT, argsJ⟩ := pj
        rw [hj] at h
        dsimp only at h
        cases hw : buildWhere d config argsJ with
        | error e => rw [hw] at h; exact Except.noConfusion h
        | ok pw =>
          obtain ⟨whereT, argsW⟩ := pw
          rw [hw] at h
          dsimp only at h
          simp only [Except.ok.injEq, Prod.mk.injEq] at h
          exact ⟨proj, joinT, whereT, argsJ, argsW, rfl, rfl, hw, h.1.symm, h.2.symm⟩

/-- Witness for C1's general conjunct at the concrete C1 query. -/
theorem pqBuildSelect_fixed_order_witness :
    ∃ proj joinT whereT argsJ argsW,
      selectProjection pqDialect c1Config = .ok proj ∧
      buildJoins pqDialect c1Config.joins c1Config.params = .ok (joinT, argsJ) ∧
      buildWhere pqDialect c1Config argsJ = .ok (whereT, argsW) ∧
      [Tok.lit "SELECT * FROM ", Tok.lit "\"testmodel\"", Tok.lit " WHERE",
        Tok.lit " ", Tok.lit "\"id\"", Tok.lit " ", Tok.lit "=", Tok.lit " ",
        Tok.par 1, Tok.lit " LIMIT ", Tok.par 2, Tok.lit " OFFSET ", Tok.par 3] =
        proj ++ [Tok.lit (pqDialect.quoteIdentifier c1Config.table)] ++ joinT ++
        whereT ++ orderByToks pqDialect c1Config.sort ++
        (limitSection c1Config.limit argsW).1 ++
        (offsetSection c1Config.offset (limitSection c1Config.limit argsW).2).1 ∧
      [Val.vint 1, Val.vint 10, Val.vint 20] =
        (offsetSection c1Config.offset (limitSection c1Config.limit argsW).2).2 :=
  pqBuildSelect_fixed_order.2 pqDialect c1Config _ _ rfl

/-- C2 (amended): on both dialects, for every top-level SELECT build
(empty bound parameter list), every INSERT build whose column list is
the row map's keys (as `Query.Insert`/`Query.InsertMap` invoke it), and
every top-level UPDATE build, the emitted placeholder tokens number
exactly the returned arguments and carry the parameter numbers `1..n`
in left-to-right order — provided every filter clause is `existsSafe`,
since an `EXISTS`/`NOT EXISTS` clause whose discarded left side is a
parameterized fragment appends arguments without emitting their
placeholders (see `select_args_placeholder_mismatch`, which refutes the
unconditional form of the claim). -/
theorem args_match_placeholders :
    (∀ (d : GoDialect) (config : QueryConfig) (toks : List Tok) (args : List Val),
      config.params = [] → configClausesSafe config →
      buildSelectWith d config = .ok (toks, args) →
      parIdxs toks = List.range' 1 args.length) ∧
    (∀ (d : GoDialect) (config : QueryConfig) (rowMap : List (String × Val))
      (toks : List Tok) (args : List Val),
      buildInsertWith d config rowMap (rowMap.map (·.1)) = .ok (toks, args) →
      parIdxs toks = List.range' 1 args.length ∧ args.length = rowMap.length) ∧
    (∀ (config : QueryConfig) (rowMap : List (String × Val)) (columns : List String)
      (toks : List Tok) (args : List Val),
      config.params = [] → (∀ c ∈ config.filters, existsSafe c = true) →
      pqBuildUpdate config rowMap columns = .ok (toks, args) →
      parIdxs toks = List.range' 1 args.length) ∧
    (∀ (config : QueryConfig) (rowMap : List (String × Val)) (columns : List String)
      (toks : List Tok) (args : List Val),
      config.params = [] → (∀ c ∈ config.filters, existsSafe c = true) →
      sqliteBuildUpdate config rowMap columns = .ok (toks, args) →
      parIdxs toks = List.range' 1 args.length) := by
  refine ⟨?_, ?_, ?_, ?_⟩
  · intro d config toks args hp hs h
    exact parAligned_closed hp (buildSelectWith_aligned d config toks args hs h)
  · intro d config rowMap toks args h
    exact buildInsertWith_keys_aligned d config rowMap toks args h
  · intro config rowMap columns toks args hp hs h
    exact parAligned_closed hp (pqBuildUpdate_aligned config rowMap columns toks args hs h)
  · intro config rowMap columns toks args hp hs h
    exact parAligned_closed hp (sqliteBuildUpdate_aligned config rowMap columns toks args hs h)

/-- Witness for C2 at concrete builds: the C1 SELECT, an INSERT from a
two-column row map, and the two dialects' UPDATEs. -/
theorem args_match_placeholders_witness :
    (parIdxs [Tok.lit "SELECT * FROM ", Tok.lit "\"testmodel\"", Tok.lit " WHERE",
        Tok.lit " ", Tok.lit "\"id\"", Tok.lit " ", Tok.lit "=", Tok.lit " ",
        Tok.par 1, Tok.lit " LIMIT ", Tok.par 2, Tok.lit " OFFSET ", Tok.par 3] =
      List.range' 1 ([Val.vint 1, Val.vint 10, Val.vint 20] : List Val).length) ∧
    (parIdxs [Tok.lit "INSERT INTO \"testmodel\" (", Tok.lit "\"test_value_1\"",
        Tok.lit ",", Tok.lit "\"test_value_2\"", Tok.lit ") VALUES (", Tok.par 1,
        Tok.lit ",", Tok.par 2, Tok.lit ")"] =
      List.range' 1 ([Val.vstr "foo", Val.vstr "bar"] : List Val).length ∧
      ([Val.vstr "foo", Val.vstr "bar"] : List Val).length = c3RowMapA.length) ∧
    (parIdxs [Tok.lit "UPDATE \"testmodel\" SET ", Tok.lit "\"test_value_1\" = ",
        Tok.par 1] = List.range' 1 ([Val.vstr "foo"] : List Val).length) ∧
    (parIdxs [Tok.lit "UPDATE `testmodel` SET ", Tok.lit "`test_value_1` = ",
        Tok.par 1] = List.range' 1 ([Val.vstr "foo"] : List Val).length) :=
  ⟨args_match_placeholders.1 pqDialect c1Config _ _ rfl ⟨by decide, by decide⟩ rfl,
   args_match_placeholders.2.1 pqDialect c3Config c3RowMapA _ _ rfl,
   args_match_placeholders.2.2.1 c3Config c3RowMapA ["test_value_1"] _ _ rfl
     (by decide) rfl,
   args_match_placeholders.2.2.2 c3Config c3RowMapA ["test_value_1"] _ _ rfl
     (by decide) rfl⟩

/-- C2 counterexample: the SELECT built for
`Filter(rem.Sql("x", rem.Param(5)), "EXISTS", rem.Unsafe("SELECT 1"))`
succeeds without error, but its returned argument list holds one value
(the `rem.Param` appended while rendering the left operand, whose text
the `EXISTS` format then discards) while the emitted SQL contains zero
placeholders, so arguments and placeholders do not correspond
one-to-one and the unconditional alignment claim fails on a reachable
build. -/
theorem select_args_placeholder_mismatch :
    pqBuildSelect c2BadConfig =
      .ok ([Tok.lit "SELECT * FROM ", Tok.lit "\"t\"", Tok.lit " WHERE",
            Tok.lit " ", Tok.lit "EXISTS", Tok.lit " (", Tok.lit "SELECT 1",
            Tok.lit ")"],
           [Val.vint 5]) ∧
    renderToks pqDialect
        [Tok.lit "SELECT * FROM ", Tok.lit "\"t\"", Tok.lit " WHERE",
         Tok.lit " ", Tok.lit "EXISTS", Tok.lit " (", Tok.lit "SELECT 1",
         Tok.lit ")"] = "SELECT * FROM \"t\" WHERE EXISTS (SELECT 1)" ∧
    (parIdxs [Tok.lit "SELECT * FROM ", Tok.lit "\"t\"", Tok.lit " WHERE",
        Tok.lit " ", Tok.lit "EXISTS", Tok.lit " (", Tok.lit "SELECT 1",
        Tok.lit ")"]).length = 0 ∧
    ([Val.vint 5] : List Val).length = 1 := by
  refine ⟨?_, ?_, ?_, ?_⟩ <;> decide

/-! ### Claim theorems: INSERT determinism -/

/-- C3 counterexample: the same abstract row map enumerated in its two
possible key orders (as Go's indeterminate `maps.Keys` may do across two
identical `Query.Insert`/`InsertMap` calls) makes `Query.InsertMap`
produce different SQL text and differently ordered argument lists, so
two builds of the same row are not guaranteed byte-identical. -/
theorem queryInsertMap_order_dependent :
    c3RowMapB = c3RowMapA.reverse ∧
    c3RowMapA.lookup "test_value_1" = c3RowMapB.lookup "test_value_1" ∧
    c3RowMapA.lookup "test_value_2" = c3RowMapB.lookup "test_value_2" ∧
    queryInsertMap c3Config c3RowMapA ≠ queryInsertMap c3Config c3RowMapB ∧
    (queryInsertMap c3Config c3RowMapA).map (fun p => renderToks pqDialect p.1) ≠
      (queryInsertMap c3Config c3RowMapB).map (fun p => renderToks pqDialect p.1) := by
  decide

theorem insertColumns_ext (d : GoDialect) (config : QueryConfig)
    (rm1 rm2 : List (String × Val))
    (hl : ∀ k, rm1.lookup k = rm2.lookup k) (columns : List String) :
    ∀ args toks first,
    insertColumns d config rm1 columns args toks first =
    insertColumns d config rm2 columns args toks first := by
  induction columns with
  | nil => intro args toks first; rfl
  | cons c rest ih =>
    intro args toks first
    unfold insertColumns
    rw [← hl c]
    cases rm1.lookup c with
    | none => rfl
    | some arg =>
      dsimp only
      split
      · exact ih (args ++ [arg]) _ false
      · rfl

/-- C3 (amended): for a fixed explicit column list, `BuildInsert` output
depends only on the row map's contents (lookup function and size), not
on its enumeration order; the byte-level nondeterminism of
`Query.Insert`/`InsertMap` comes solely from deriving the column list
via `maps.Keys`. -/
theorem buildInsert_map_extensional :
    ∀ (d : GoDialect) (config : QueryConfig) (columns : List String)
      (rm1 rm2 : List (String × Val)),
      (∀ k, rm1.lookup k = rm2.lookup k) → rm1.length = rm2.length →
      buildInsertWith d config rm1 columns = buildInsertWith d config rm2 columns := by
  intro d config columns rm1 rm2 hl hn
  unfold buildInsertWith
  rw [insertColumns_ext d config rm1 rm2 hl columns [] [] true, hn]

/-- Witness for C3's amended claim at the two concrete enumerations. -/
theorem buildInsert_map_extensional_witness :
    buildInsertWith pqDialect c3Config c3RowMapA ["test_value_1", "test_value_2"] =
    buildInsertWith pqDialect c3Config c3RowMapB ["test_value_1", "test_value_2"] :=
  buildInsert_map_extensional pqDialect c3Config ["test_value_1", "test_value_2"]
    c3RowMapA c3RowMapB
    (fun k => by
      by_cases h1 : k = "test_value_1"
      · subst h1; rfl
      · by_cases h2 : k = "test_value_2"
        · subst h2; rfl
        · have e1 : (k == "test_value_1") = false := beq_eq_false_iff_ne.mpr h1
          have e2 : (k == "test_value_2") = false := beq_eq_false_iff_ne.mpr h2
          simp [c3RowMapA, c3RowMapB, List.lookup, e1, e2]) rfl

/-! ### Claim theorems: DELETE/UPDATE clause support and DDL -/

/-- C4: evaluating the builders on a query state carrying a sort list, a
limit, and an offset.  `PqDialect.BuildDelete` rejects each with a hard
error and `SqliteDialect.BuildDelete`/`BuildUpdate` append `ORDER BY`
and `LIMIT` and reject `OFFSET`; but `PqDialect.BuildUpdate` succeeds
and returns output identical to the same state with sort, limit, and
offset cleared — a silently-ignored no-op, contradicting the claim that
it returns a hard error for LIMIT/OFFSET. -/
theorem pqBuildUpdate_ignores_sort_limit_offset :
    pqBuildUpdate c4Config c4RowMap ["test_value_1"] =
      pqBuildUpdate { c4Config with sort := [], limit := none, offset := none }
        c4RowMap ["test_value_1"] ∧
    (pqBuildUpdate c4Config c4RowMap ["test_value_1"]).map
      (fun p => (renderToks pqDialect p.1, p.2)) =
      .ok ("UPDATE \"testmodel\" SET \"test_value_1\" = $1", [.vstr "foo"]) ∧
    pqBuildDelete c4Config = .error "rem: DELETE does not support ORDER BY" ∧
    pqBuildDelete { c4Config with sort := [] } =
      .error "rem: DELETE does not support LIMIT" ∧
    pqBuildDelete { c4Config with sort := [], limit := none } =
      .error "rem: DELETE does not support OFFSET" ∧
    (sqliteBuildUpdate { c4Config with offset := none } c4RowMap ["test_value_1"]).map
      (fun p => (renderToks sqliteDialect p.1, p.2)) =
      .ok ("UPDATE `testmodel` SET `test_value_1` = ? ORDER BY `test_id` DESC LIMIT ?",
        [.vstr "foo", .vint 10]) ∧
    sqliteBuildUpdate c4Config c4RowMap ["test_value_1"] =
      .error "rem: UPDATE does not support OFFSET" ∧
    (sqliteBuildDelete { c4Config with offset := none }).map
      (fun p => (renderToks sqliteDialect p.1, p.2)) =
      .ok ("DELETE FROM `testmodel` ORDER BY `test_id` DESC LIMIT ?", [.vint 10]) ∧
    sqliteBuildDelete c4Config = .error "rem: DELETE does not support OFFSET" := by
  decide

/-- C6: the PostgreSQL `TableCreate` DDL for a model with an `int64`
primary key (column `test_id`, tagged `primary_key:"true"`) and a
100-character string column `test_value_1` is exactly the two-line
`CREATE TABLE` statement with `BIGSERIAL PRIMARY KEY NOT NULL` and
`VARCHAR(100) NOT NULL`; and in general the primary-key tag on an
`int`/`int64` field yields `BIGSERIAL PRIMARY KEY NOT NULL` (a serial
type plus the `PRIMARY KEY` modifier in place of plain `BIGINT`). -/
theorem pqTableCreate_primary_serial :
    pqBuildTableCreate { table := "testmodel", fields := testmodelFields } false =
      .ok "CREATE TABLE \"testmodel\" (\n\t\"test_id\" BIGSERIAL PRIMARY KEY NOT NULL,\n\t\"test_value_1\" VARCHAR(100) NOT NULL\n)" ∧
    (∀ (tags : List (String × String)) (t : GoType),
      tagGet tags "db_type" = "" → tagGet tags "primary_key" = "true" →
      tagGet tags "db_default" = "" → tagGet tags "db_unique" ≠ "true" →
      t = .goInt ∨ t = .goInt64 →
      pqColumnType { typ := t, tags := tags } = .ok "BIGSERIAL PRIMARY KEY NOT NULL") := by
  refine ⟨rfl, ?_⟩
  intro tags t h1 h2 h3 h4 ht
  unfold pqColumnType
  rw [h1, h2, h3]
  rcases ht with rfl | rfl <;> simp [h4]

/-- Witness for C6's general conjunct at the `test_id` field. -/
theorem pqTableCreate_primary_serial_witness :
    pqColumnType
      { typ := .goInt64, tags := [("db", "test_id"), ("primary_key", "true")] } =
      .ok "BIGSERIAL PRIMARY KEY NOT NULL" :=
  pqTableCreate_primary_serial.2 [("db", "test_id"), ("primary_key", "true")]
    .goInt64 (by decide) (by decide) (by decide) (by decide) (.inr rfl)

/-! ### Claim theorems: execution methods and prefetching -/

/-- C7 counterexample: with an attached, already-triggered cancellation
context and an empty result set, `First`/`FirstToMap` return the
context's error, not the distinguished `sql.ErrNoRows`. -/
theorem first_cancelled_ctx_not_noRows :
    (firstRun pqDialect emptyDb c7Config).1 = .error .ctxErr ∧
    (firstToMapRun pqDialect emptyDb c7Config).1 = .error .ctxErr ∧
    GoError.ctxErr ≠ GoError.errNoRows := by
  decide

/-- C7 (amended): `First` and `FirstToMap` force `limit = 1` before the
SELECT is built (the query state's prior limit is irrelevant to the
outcome); on a zero-row result set they return the distinguished
`sql.ErrNoRows` — unless an attached cancellation context has already
triggered, in which case the context's error is returned instead — and
on a non-empty result set they return the first row. -/
theorem first_forces_limit_and_noRows :
    (∀ (d : GoDialect) (env : DbEnv) (config : QueryConfig) (v : Option Val),
      firstRun d env { config with limit := v } = firstRun d env config ∧
      firstToMapRun d env { config with limit := v } = firstToMapRun d env config) ∧
    (∀ (d : GoDialect) (env : DbEnv) (config : QueryConfig)
      (toks : List Tok) (args : List Val),
      buildSelectWith d { config with limit := some (.vint 1) } = .ok (toks, args) →
      env.rowsFor toks args = .ok [] →
      config.context ≠ some true →
      (firstRun d env config).1 = .error .errNoRows ∧
      (firstToMapRun d env config).1 = .error .errNoRows) ∧
    (∀ (d : GoDialect) (env : DbEnv) (config : QueryConfig) (toks : List Tok)
      (args : List Val) (v : Val) (rest : List (Except String Val)),
      buildSelectWith d { config with limit := some (.vint 1) } = .ok (toks, args) →
      env.rowsFor toks args = .ok (.ok v :: rest) →
      (firstRun d env config).1 = .ok v ∧ (firstToMapRun d env config).1 = .ok v) := by
  refine ⟨fun d env config v => ⟨rfl, rfl⟩, ?_, ?_⟩
  · intro d env config toks args h1 h2 hctx
    have hcc : ∀ p : Except GoError Val × CursorTrace,
        (∀ b, config.context = some b → b = false → p.1 = .error .errNoRows) →
        True := fun _ _ => trivial
    constructor
    · unfold firstRun
      dsimp only
      rw [h1]
      dsimp only
      rw [h2]
      dsimp only
      cases hc : config.context with
      | none => rfl
      | some b =>
        cases b with
        | true => exact absurd hc hctx
        | false => rfl
    · unfold firstToMapRun
      dsimp only
      rw [h1]
      dsimp only
      rw [h2]
      dsimp only
      cases hc : config.context with
      | none => rfl
      | some b =>
        cases b with
        | true => exact absurd hc hctx
        | false => rfl
  · intro d env config toks args v rest h1 h2
    constructor
    · unfold firstRun
      dsimp only
      rw [h1]
      dsimp only
      rw [h2]
    · unfold firstToMapRun
      dsimp only
      rw [h1]
      dsimp only
      rw [h2]

/-- Witness for C7's amended claim at a concrete query and database. -/
theorem first_forces_limit_and_noRows_witness :
    ((firstRun pqDialect emptyDb { table := "t" }).1 = .error .errNoRows ∧
      (firstToMapRun pqDialect emptyDb { table := "t" }).1 = .error .errNoRows) ∧
    ((firstRun pqDialect oneRowDb { table := "t" }).1 = .ok (.vint 7) ∧
      (firstToMapRun pqDialect oneRowDb { table := "t" }).1 = .ok (.vint 7)) :=
  ⟨first_forces_limit_and_noRows.2.1 pqDialect emptyDb { table := "t" }
      [Tok.lit "SELECT * FROM ", Tok.lit "\"t\"", Tok.lit " LIMIT ", Tok.par 1]
      [Val.vint 1] rfl rfl (by decide),
   first_forces_limit_and_noRows.2.2 pqDialect oneRowDb { table := "t" }
      [Tok.lit "SELECT * FROM ", Tok.lit "\"t\"", Tok.lit " LIMIT ", Tok.par 1]
      [Val.vint 1] (.vint 7) [] rfl rfl⟩

/-- C9: `Exists` obtains a rows cursor and returns without closing it —
on any result set with at least one row the cursor is left open, while
`AllToMap`, `First`, and `FirstToMap` never leak theirs on any path. -/
theorem exists_leaks_cursor :
    existsRun pqDialect oneRowDb { table := "t" } = (.ok true, .openLeaked) ∧
    (∀ (d : GoDialect) (env : DbEnv) (config : QueryConfig),
      (allToMapRun d env config).2 ≠ .openLeaked ∧
      (firstRun d env config).2 ≠ .openLeaked ∧
      (firstToMapRun d env config).2 ≠ .openLeaked) := by
  refine ⟨rfl, ?_⟩
  intro d env config
  refine ⟨?_, ?_, ?_⟩
  · unfold allToMapRun
    repeat' split
    all_goals simp
  · unfold firstRun
    dsimp only
    split
    · simp
    · split
      · simp
      · split
        · split <;> simp
        · split <;> simp
  · unfold firstToMapRun
    dsimp only
    split
    · simp
    · split
      · simp
      · split
        · split <;> simp
        · split <;> simp

theorem fkPopulate_nil (row : AccountRow) : fkPopulate [] row = row := by
  unfold fkPopulate
  split <;> simp [List.find?]

theorem otmPopulate_nil (row : OtmGroup) : otmPopulate [] row = row := by
  cases row
  simp [otmPopulate, List.filter]

theorem fkCollect_pos (rows : List AccountRow) :
    (fkCollect rows).length > 0 ↔ rows.any (·.groupValid) = true := by
  simp only [fkCollect, List.length_map, List.length_pos, Ne,
    List.filter_eq_nil_iff, List.any_eq_true]
  push_neg
  simp

/-- C8: for any number of primary rows, the to-one and to-many prefetch
phases of `Query.slice` issue at most one batched follow-up query —
exactly one when any related identifiers were collected (a valid
foreign-key wrapper exists, respectively the row set is non-empty), and
zero otherwise — never one query per row; and every primary row of the
output is the corresponding input row stitched against that single
batched result set (`fkPopulate`: first batch row whose primary key
equals the stored foreign-key value, invalid wrappers and unmatched rows
untouched; `otmPopulate`: all batch rows whose foreign-key value equals
the owner's primary key, appended in batch order). -/
theorem prefetch_single_batched_query :
    (∀ (env : RelatedDb) (rows : List AccountRow),
      (slicePrefetchFk env rows).2 ≤ 1 ∧
      ((slicePrefetchFk env rows).2 = 1 ↔ rows.any (·.groupValid) = true) ∧
      (slicePrefetchFk env rows).1 = rows.map (fkPopulate (fkBatch env rows))) ∧
    (∀ (env : RelatedDb) (rows : List OtmGroup),
      (slicePrefetchOtm env rows).2 ≤ 1 ∧
      ((slicePrefetchOtm env rows).2 = 1 ↔ rows ≠ []) ∧
      (slicePrefetchOtm env rows).1 = rows.map (otmPopulate (otmBatch env rows))) := by
  constructor
  · intro env rows
    by_cases hc : (fkCollect rows).length > 0
    · refine ⟨?_, ?_, ?_⟩
      · simp [slicePrefetchFk, hc]
      · simp [slicePrefetchFk, hc, (fkCollect_pos rows).mp hc]
      · simp [slicePrefetchFk, fkBatch, hc]
    · have hany := (not_iff_not.mpr (fkCollect_pos rows)).mp hc
      have hid : fkPopulate ([] : List GroupRow) = id := funext fkPopulate_nil
      refine ⟨?_, ?_, ?_⟩
      · simp [slicePrefetchFk, hc]
      · simp [slicePrefetchFk, hc, hany]
      · simp [slicePrefetchFk, fkBatch, hc, hid]
  · intro env rows
    by_cases hc : (otmCollect rows).length > 0
    · have hne : rows ≠ [] := by
        intro hnil
        rw [hnil] at hc
        simp [otmCollect] at hc
      refine ⟨?_, ?_, ?_⟩
      · simp [slicePrefetchOtm, hc]
      · simp [slicePrefetchOtm, hc, hne]
      · simp [slicePrefetchOtm, otmBatch, hc]
    · have hnil : rows = [] := by
        cases rows with
        | nil => rfl
        | cons r rest => simp [otmCollect] at hc
      have hid : otmPopulate ([] : List AccountRow) = id := funext otmPopulate_nil
      refine ⟨?_, ?_, ?_⟩
      · simp [slicePrefetchOtm, hc]
      · simp [slicePrefetchOtm, hc, hnil, otmCollect]
      · simp [slicePrefetchOtm, otmBatch, hc, hid]

/-! ### Claim theorems: filter combinators -/

theorem flattenFilterClause_eq (acc : List FilterClause) (a : FilterArg) :
    flattenFilterClause acc a = acc ++ argClauses a := by
  cases a <;> simp [flattenFilterClause, argClauses]

theorem foldl_flatten_append (args : List FilterArg) :
    ∀ acc, args.foldl flattenFilterClause acc = acc ++ flattenAll args := by
  induction args with
  | nil => intro acc; simp [flattenAll]
  | cons a rest ih =>
    intro acc
    rw [List.foldl_cons, ih, flattenFilterClause_eq]
    conv_rhs => rw [flattenAll, List.foldl_cons, ih, flattenFilterClause_eq]
    simp [List.append_assoc]

theorem flattenAll_join (args : List FilterArg) :
    flattenAll args = (args.map argClauses).flatten := by
  induction args with
  | nil => rfl
  | cons a rest ih =>
    rw [flattenAll, List.foldl_cons, foldl_flatten_append, flattenFilterClause_eq]
    simp [ih]

theorem foldl_connect (r : String) (flat : List FilterClause) :
    ∀ (acc : List FilterClause) (dep : Int) (i : Nat),
    (flat.foldl (connectStep r) (acc, dep, i)).1 =
      acc ++ specConnJoin r dep (i == 0) flat := by
  induction flat with
  | nil => intro acc dep i; simp [specConnJoin]
  | cons c rest ih =>
    intro acc dep i
    rw [List.foldl_cons]
    have hstep : connectStep r (acc, dep, i) c =
        ((if i > 0 ∧ dep = 0 then acc ++ [ruleClause r] else acc) ++ [c],
         (if c.rule = "(" then dep + 1 else if c.rule = ")" then dep - 1 else dep),
         i + 1) := rfl
    rw [hstep, ih]
    by_cases hi : i = 0
    · subst hi
      simp only [specConnJoin, Nat.lt_irrefl, false_and, if_false, reduceIte,
        beq_self_eq_true, not_true, List.nil_append, List.append_assoc,
        List.cons_append, Nat.add_one_ne_zero, beq_eq_false_iff_ne, Ne,
        not_false_eq_true]
      simp
    · have hi2 : (i == 0) = false := beq_eq_false_iff_ne.mpr hi
      have hi3 : i > 0 := Nat.pos_of_ne_zero hi
      by_cases hd : dep = 0
      · simp only [specConnJoin, hd, hi2, hi3, and_true, if_true, reduceIte,
          Bool.false_eq_true, not_false_eq_true, true_and, List.append_assoc,
          List.cons_append, List.singleton_append]
        simp
      · simp only [specConnJoin, hd, hi2, and_false, if_false, reduceIte,
          Bool.false_eq_true, not_false_eq_true, true_and, List.append_assoc]
        simp [hd]

theorem and_eq_spec (args : List FilterArg) :
    Rem.And args =
      ruleClause "(" :: specConnJoin "AND" 0 true (flattenAll args) ++
        [ruleClause ")"] := by
  unfold Rem.And
  dsimp only
  rw [foldl_connect]
  simp

theorem or_eq_spec (args : List FilterArg) :
    Rem.Or args =
      ruleClause "(" :: specConnJoin "OR" 0 true (flattenAll args) ++
        [ruleClause ")"] := by
  unfold Rem.Or
  dsimp only
  rw [foldl_connect]
  simp

/-- C5: `And` and `Or` flatten their argument list preserving order
(each clause contributes itself, each clause sequence its elements, and
every non-clause non-sequence argument is silently dropped), wrap the
flattened sequence in exactly one bracket pair, and insert their
connective precisely where the declarative description `specConnJoin`
does: before every element except the first whose running bracket depth
is zero, leaving the interiors of nested bracket pairs untouched. -/
theorem andOr_flatten_wrap_connect :
    ∀ args : List FilterArg,
      Rem.And args =
        ruleClause "(" :: specConnJoin "AND" 0 true (flattenAll args) ++
          [ruleClause ")"] ∧
      Rem.Or args =
        ruleClause "(" :: specConnJoin "OR" 0 true (flattenAll args) ++
          [ruleClause ")"] ∧
      flattenAll args = (args.map argClauses).flatten := fun args =>
  ⟨and_eq_spec args, or_eq_spec args, flattenAll_join args⟩

theorem ruleClause_rule (r : String) : (ruleClause r).rule = r := rfl

theorem fseq_depthCheck {cs : List FilterClause} (h : FSeq cs) :
    ∀ (dep : Nat) (rest : List FilterClause),
    depthCheck dep (cs ++ rest) = depthCheck dep rest := by
  induction h with
  | leafSingle c hc =>
    intro dep rest
    simp [depthCheck, hc]
  | groupSingle inner hin ih =>
    intro dep rest
    simp only [List.cons_append, List.append_assoc, List.singleton_append,
      List.nil_append]
    simp only [depthCheck, ruleClause_rule, reduceIte]
    rw [ih (dep + 1) (ruleClause ")" :: rest)]
    simp [depthCheck, ruleClause_rule]
  | leafCons c conn rest2 hc hconn hrest ih =>
    intro dep rest
    simp only [List.cons_append]
    rcases hconn with hco | hco <;> simp [depthCheck, hc, hco, ih]
  | groupCons inner conn rest2 hin hconn hrest ihInner ihRest =>
    intro dep rest
    simp only [List.cons_append, List.append_assoc, List.nil_append]
    simp only [depthCheck, ruleClause_rule, reduceIte]
    rw [ihInner (dep + 1) (ruleClause ")" :: conn :: (rest2 ++ rest))]
    simp only [depthCheck, ruleClause_rule, reduceIte]
    rcases hconn with hco | hco <;> simp [depthCheck, hco, ihRest]

theorem fseq_wellBracketed {cs : List FilterClause} (h : FSeq cs) :
    wellBracketed cs = true := by
  have := fseq_depthCheck h 0 []
  rw [List.append_nil] at this
  exact this.trans rfl

theorem specConnJoin_cons (r : String) (dep : Int) (first : Bool)
    (c : FilterClause) (rest : List FilterClause) :
    specConnJoin r dep first (c :: rest) =
      (if ¬first = true ∧ dep = 0 then [ruleClause r] else []) ++
        c :: specConnJoin r
          (if c.rule = "(" then dep + 1 else if c.rule = ")" then dep - 1 else dep)
          false rest := rfl

theorem specConnJoin_skip {inner : List FilterClause} (h : FSeq inner) (r : String) :
    ∀ (dep : Int) (first : Bool) (rest : List FilterClause), 1 ≤ dep →
    specConnJoin r dep first (inner ++ rest) =
      inner ++ specConnJoin r dep false rest := by
  induction h with
  | leafSingle c hc =>
    intro dep first rest hdep
    have hd0 : ¬dep = 0 := by omega
    have hw1 : ¬c.rule = "(" := by simp [hc]
    have hw2 : ¬c.rule = ")" := by simp [hc]
    rw [List.singleton_append, specConnJoin_cons, if_neg hw1, if_neg hw2,
      if_neg (by simp [hd0])]
    rfl
  | groupSingle inner hin ih =>
    intro dep first rest hdep
    have hd0 : ¬dep = 0 := by omega
    have hd1 : ¬dep + 1 = 0 := by omega
    have hob : (ruleClause "(").rule = "(" := rfl
    have hcb1 : ¬(ruleClause ")").rule = "(" := by decide
    have hcb2 : (ruleClause ")").rule = ")" := rfl
    simp only [List.cons_append, List.append_assoc, List.singleton_append,
      List.nil_append]
    rw [specConnJoin_cons, if_pos hob, if_neg (by simp [hd0]),
      ih (dep + 1) false (ruleClause ")" :: rest) (by omega),
      specConnJoin_cons, if_neg hcb1, if_pos hcb2, if_neg (by simp [hd1])]
    have hsub : dep + 1 - 1 = dep := by omega
    rw [hsub]
    rfl
  | leafCons c conn rest2 hc hconn hrest ih =>
    intro dep first rest hdep
    have hd0 : ¬dep = 0 := by omega
    have hw1 : ¬c.rule = "(" := by simp [hc]
    have hw2 : ¬c.rule = ")" := by simp [hc]
    have hcn1 : ¬conn.rule = "(" := by
      rcases hconn with hco | hco <;> simp [hco]
    have hcn2 : ¬conn.rule = ")" := by
      rcases hconn with hco | hco <;> simp [hco]
    simp only [List.cons_append]
    rw [specConnJoin_cons, if_neg hw1, if_neg hw2, if_neg (by simp [hd0]),
      specConnJoin_cons, if_neg hcn1, if_neg hcn2, if_neg (by simp [hd0]),
      ih dep false rest hdep]
    rfl
  | groupCons inner conn rest2 hin hconn hrest ihInner ihRest =>
    intro dep first rest hdep
    have hd0 : ¬dep = 0 := by omega
    have hd1 : ¬dep + 1 = 0 := by omega
    have hob : (ruleClause "(").rule = "(" := rfl
    have hcb1 : ¬(ruleClause ")").rule = "(" := by decide
    have hcb2 : (ruleClause ")").rule = ")" := rfl
    have hcn1 : ¬conn.rule = "(" := by
      rcases hconn with hco | hco <;> simp [hco]
    have hcn2 : ¬conn.rule = ")" := by
      rcases hconn with hco | hco <;> simp [hco]
    simp only [List.cons_append, List.append_assoc, List.nil_append]
    rw [specConnJoin_cons, if_pos hob, if_neg (by simp [hd0]),
      ihInner (dep + 1) false (ruleClause ")" :: conn :: (rest2 ++ rest)) (by omega),
      specConnJoin_cons, if_neg hcb1, if_pos hcb2, if_neg (by simp [hd1])]
    have hsub : dep + 1 - 1 = dep := by omega
    rw [hsub, specConnJoin_cons, if_neg hcn1, if_neg hcn2, if_neg (by simp [hd0]),
      ihRest dep false rest hdep]
    rfl

theorem specConnJoin_leaf (r : String) {c : FilterClause} (hc : c.rule = "WHERE")
    (rest : List FilterClause) :
    specConnJoin r 0 true (c :: rest) = c :: specConnJoin r 0 false rest := by
  have hw1 : ¬c.rule = "(" := by simp [hc]
  have hw2 : ¬c.rule = ")" := by simp [hc]
  rw [specConnJoin_cons, if_neg hw1, if_neg hw2, if_neg (by simp)]
  rfl

theorem specConnJoin_group (r : String) {inner : List FilterClause}
    (hin : FSeq inner) (rest : List FilterClause) :
    specConnJoin r 0 true (ruleClause "(" :: (inner ++ ruleClause ")" :: rest)) =
      ruleClause "(" :: (inner ++ ruleClause ")" :: specConnJoin r 0 false rest) := by
  have hob : (ruleClause "(").rule = "(" := rfl
  have hcb1 : ¬(ruleClause ")").rule = "(" := by decide
  have hcb2 : (ruleClause ")").rule = ")" := rfl
  rw [specConnJoin_cons, if_pos hob, if_neg (by simp),
    specConnJoin_skip hin r (0 + 1) false (ruleClause ")" :: rest) (by omega),
    specConnJoin_cons, if_neg hcb1, if_pos hcb2, if_neg (by simp)]
  norm_num

theorem specConnJoin_conn_first (r : String) (x : FilterClause)
    (xs : List FilterClause) :
    specConnJoin r 0 false (x :: xs) = ruleClause r :: specConnJoin r 0 true (x :: xs) := by
  rw [specConnJoin_cons, specConnJoin_cons]
  simp

theorem specConnJoin_items (r : String)
    (hr : (ruleClause r).rule = "AND" ∨ (ruleClause r).rule = "OR") :
    ∀ (items : List (List FilterClause)),
    (∀ it ∈ items, it = [] ∨ IsItemSeq it) →
    items.flatten ≠ [] → FSeq (specConnJoin r 0 true items.flatten) := by
  intro items
  induction items with
  | nil => intro _ hne; simp at hne
  | cons it rest ih =>
    intro hok hne
    have hrest : ∀ x ∈ rest, x = [] ∨ IsItemSeq x := fun x hx => hok x (by simp [hx])
    rcases hok it (by simp) with rfl | hit
    · rw [List.flatten_cons, List.nil_append]
      refine ih hrest ?_
      rw [List.flatten_cons, List.nil_append] at hne
      exact hne
    rw [List.flatten_cons]
    by_cases h2 : rest.flatten = []
    · rw [h2, List.append_nil]
      rcases hit with ⟨c, rfl, hc⟩ | ⟨inner, hin, rfl⟩
      · rw [specConnJoin_leaf r hc]
        exact FSeq.leafSingle c hc
      · rw [List.cons_append, specConnJoin_group r hin]
        exact FSeq.groupSingle inner hin
    · obtain ⟨y, ys, hy⟩ := List.exists_cons_of_ne_nil h2
      have hfs := ih hrest h2
      rcases hit with ⟨c, rfl, hc⟩ | ⟨inner, hin, rfl⟩
      · rw [List.singleton_append, specConnJoin_leaf r hc, hy,
          specConnJoin_conn_first, ← hy]
        exact FSeq.leafCons c (ruleClause r) _ hc hr hfs
      · rw [show (ruleClause "(" :: inner ++ [ruleClause ")"]) ++ rest.flatten =
          ruleClause "(" :: (inner ++ ruleClause ")" :: rest.flatten) by
            simp only [List.cons_append, List.append_assoc, List.singleton_append,
              List.nil_append]]
        rw [specConnJoin_group r hin, hy, specConnJoin_conn_first, ← hy]
        exact FSeq.groupCons inner (ruleClause r) _ hin hr hfs

theorem fseq_append {xs ys : List FilterClause} (conn : FilterClause)
    (hx : FSeq xs) (hconn : conn.rule = "AND" ∨ conn.rule = "OR")
    (hy : FSeq ys) : FSeq (xs ++ conn :: ys) := by
  induction hx with
  | leafSingle c hc => exact FSeq.leafCons c conn ys hc hconn hy
  | groupSingle inner hin ih =>
    have := FSeq.groupCons inner conn ys hin hconn hy
    simpa [List.append_assoc] using this
  | leafCons c conn2 rest hc hconn2 hrest ih =>
    simpa using FSeq.leafCons c conn2 (rest ++ conn :: ys) hc hconn2 ih
  | groupCons inner conn2 rest hin hconn2 hrest ihInner ihRest =>
    have := FSeq.groupCons inner conn2 (rest ++ conn :: ys) hin hconn2 ihRest
    simpa [List.append_assoc] using this

theorem fseq_ne_nil {cs : List FilterClause} (h : FSeq cs) : cs ≠ [] := by
  cases h <;> simp

theorem argClauses_ok {a : FilterArg} (h : ArgOk a) :
    argClauses a = [] ∨ IsItemSeq (argClauses a) := by
  cases a with
  | clause c => exact .inr (.inl ⟨c, rfl, h⟩)
  | clauseList cs => exact .inr h
  | other => exact .inl rfl

theorem fseq_and_group (args : List FilterArg) (hArgs : ∀ a ∈ args, ArgOk a)
    (hne : flattenAll args ≠ []) : FSeq (Rem.And args) := by
  have hitems : ∀ it ∈ args.map argClauses, it = [] ∨ IsItemSeq it := by
    intro it hit
    rw [List.mem_map] at hit
    obtain ⟨a, ha, rfl⟩ := hit
    exact argClauses_ok (hArgs a ha)
  have hflat : (args.map argClauses).flatten ≠ [] := by
    rw [← flattenAll_join]; exact hne
  have hspec : FSeq (specConnJoin "AND" 0 true (flattenAll args)) := by
    rw [flattenAll_join]
    exact specConnJoin_items "AND" (.inl rfl) _ hitems hflat
  rw [and_eq_spec]
  exact FSeq.groupSingle _ hspec

theorem fseq_or_group (args : List FilterArg) (hArgs : ∀ a ∈ args, ArgOk a)
    (hne : flattenAll args ≠ []) : FSeq (Rem.Or args) := by
  have hitems : ∀ it ∈ args.map argClauses, it = [] ∨ IsItemSeq it := by
    intro it hit
    rw [List.mem_map] at hit
    obtain ⟨a, ha, rfl⟩ := hit
    exact argClauses_ok (hArgs a ha)
  have hflat : (args.map argClauses).flatten ≠ [] := by
    rw [← flattenAll_join]; exact hne
  have hspec : FSeq (specConnJoin "OR" 0 true (flattenAll args)) := by
    rw [flattenAll_join]
    exact specConnJoin_items "OR" (.inr rfl) _ hitems hflat
  rw [or_eq_spec]
  exact FSeq.groupSingle _ hspec

/-- C10: on a query whose accumulated filters are non-empty, `Filter`,
`FilterAnd` and `FilterOr` each join their new clause or group to the
existing sequence with a single `AND` connective (`FilterOr` uses `OR`
only inside its own group, which is part of `Rem.Or args`); each
`FilterAnd`/`FilterOr` appends exactly one balanced bracket pair (the
group produced by `Rem.And`/`Rem.Or`); and under the well-formedness
invariant (existing filters empty or a well-formed alternation `FSeq`,
all arguments acceptable, flattened arguments non-empty for the group
forms) the result is again a well-formed alternation, hence
well-bracketed with connectives between all top-level neighbors. -/
theorem filter_join_and_brackets :
    ∀ (config : QueryConfig) (column : Operand) (operator : String)
      (value : Operand) (args : List FilterArg),
      (filterQ config column operator value).filters =
        config.filters ++
          (if config.filters.length > 0 then [ruleClause "AND"] else []) ++
          [Q column operator value] ∧
      (filterAnd config args).filters =
        config.filters ++
          (if config.filters.length > 0 then [ruleClause "AND"] else []) ++
          Rem.And args ∧
      (filterOr config args).filters =
        config.filters ++
          (if config.filters.length > 0 then [ruleClause "AND"] else []) ++
          Rem.Or args ∧
      ((config.filters = [] ∨ FSeq config.filters) →
        FSeq (filterQ config column operator value).filters ∧
        wellBracketed (filterQ config column operator value).filters = true ∧
        ((∀ a ∈ args, ArgOk a) → flattenAll args ≠ [] →
          FSeq (filterAnd config args).filters ∧
          wellBracketed (filterAnd config args).filters = true ∧
          FSeq (filterOr config args).filters ∧
          wellBracketed (filterOr config args).filters = true)) := by
  intro config column operator value args
  have hQ : (filterQ config column operator value).filters =
      config.filters ++
        (if config.filters.length > 0 then [ruleClause "AND"] else []) ++
        [Q column operator value] := by
    unfold filterQ
    by_cases h : config.filters.length > 0 <;> simp [h]
  have hAnd : (filterAnd config args).filters =
      config.filters ++
        (if config.filters.length > 0 then [ruleClause "AND"] else []) ++
        Rem.And args := by
    unfold filterAnd
    dsimp only
    rw [foldl_connect, and_eq_spec]
    by_cases h : config.filters.length > 0 <;> simp [h]
  have hOr : (filterOr config args).filters =
      config.filters ++
        (if config.filters.length > 0 then [ruleClause "AND"] else []) ++
        Rem.Or args := by
    unfold filterOr
    dsimp only
    rw [foldl_connect, or_eq_spec]
    by_cases h : config.filters.length > 0 <;> simp [h]
  refine ⟨hQ, hAnd, hOr, ?_⟩
  intro hwf
  have hQseq : FSeq (filterQ config column operator value).filters := by
    rw [hQ]
    rcases hwf with hnil | hseq
    · rw [hnil]
      simp only [List.length_nil, Nat.lt_irrefl, if_false, List.nil_append,
        reduceIte]
      exact FSeq.leafSingle _ rfl
    · have hpos : config.filters.length > 0 :=
        List.length_pos.mpr (fseq_ne_nil hseq)
      rw [if_pos hpos]
      have := fseq_append (ruleClause "AND") hseq (.inl rfl)
        (FSeq.leafSingle (Q column operator value) rfl)
      simpa [List.append_assoc] using this
  refine ⟨hQseq, fseq_wellBracketed hQseq, ?_⟩
  intro hArgs hne
  have hAndG := fseq_and_group args hArgs hne
  have hOrG := fseq_or_group args hArgs hne
  have hAndSeq : FSeq (filterAnd config args).filters := by
    rw [hAnd]
    rcases hwf with hnil | hseq
    · rw [hnil]
      simpa using hAndG
    · have hpos : config.filters.length > 0 :=
        List.length_pos.mpr (fseq_ne_nil hseq)
      rw [if_pos hpos]
      have := fseq_append (ruleClause "AND") hseq (.inl rfl) hAndG
      simpa [List.append_assoc] using this
  have hOrSeq : FSeq (filterOr config args).filters := by
    rw [hOr]
    rcases hwf with hnil | hseq
    · rw [hnil]
      simpa using hOrG
    · have hpos : config.filters.length > 0 :=
        List.length_pos.mpr (fseq_ne_nil hseq)
      rw [if_pos hpos]
      have := fseq_append (ruleClause "AND") hseq (.inl rfl) hOrG
      simpa [List.append_assoc] using this
  exact ⟨hAndSeq, fseq_wellBracketed hAndSeq, hOrSeq,
    fseq_wellBracketed hOrSeq⟩

/-- Concrete instantiation of `filter_join_and_brackets`: the C1 query
(whose single accumulated filter is the leaf `id = 1`) extended by
`FilterAnd`/`FilterOr` with a leaf argument, a dropped non-clause
argument, and a bracketed-group argument stays a well-formed,
well-bracketed alternation. -/
theorem filter_join_and_brackets_witness :
    FSeq (filterQ c1Config (.gostring "a") "=" (.goval (.vint 2))).filters ∧
    wellBracketed
      (filterQ c1Config (.gostring "a") "=" (.goval (.vint 2))).filters
      = true ∧
    (FSeq (filterAnd c1Config
        [.clause (Q (.gostring "a") "=" (.goval (.vint 2))), .other,
         .clauseList (Rem.And [.clause (Q (.gostring "b") "=" (.goval (.vint 3)))])]).filters ∧
      wellBracketed (filterAnd c1Config
        [.clause (Q (.gostring "a") "=" (.goval (.vint 2))), .other,
         .clauseList (Rem.And [.clause (Q (.gostring "b") "=" (.goval (.vint 3)))])]).filters
        = true ∧
      FSeq (filterOr c1Config
        [.clause (Q (.gostring "a") "=" (.goval (.vint 2))), .other,
         .clauseList (Rem.And [.clause (Q (.gostring "b") "=" (.goval (.vint 3)))])]).filters ∧
      wellBracketed (filterOr c1Config
        [.clause (Q (.gostring "a") "=" (.goval (.vint 2))), .other,
         .clauseList (Rem.And [.clause (Q (.gostring "b") "=" (.goval (.vint 3)))])]).filters
        = true) :=
  (filter_join_and_brackets c1Config (.gostring "a") "=" (.goval (.vint 2))
      [.clause (Q (.gostring "a") "=" (.goval (.vint 2))), .other,
       .clauseList (Rem.And [.clause (Q (.gostring "b") "=" (.goval (.vint 3)))])]).2.2.2
    (.inr (FSeq.leafSingle (Q (.gostring "id") "=" (.goval (.vint 1))) rfl))
    |>.imp id (And.imp id (fun h => h
      (by
        intro a ha
        simp only [List.mem_cons, List.not_mem_nil, or_false] at ha
        rcases ha with rfl | rfl | rfl
        · exact rfl
        · exact trivial
        · exact .inr ⟨_, FSeq.leafSingle (Q (.gostring "b") "=" (.goval (.vint 3))) rfl,
            and_eq_spec _⟩)
      (by decide)))
